import Mathlib

/-!
Shallow embedding of the github-reminder core (package `reminder`,
file `reminder.go`, together with the pure data carried by `client.go`).
Go strings are modelled as `List Char` (ASCII-faithful), Go `time.Time`
values as UTC wall-clock components, and the GitHub client's side effects
as returned action lists.  Every definition mirrors the corresponding Go
function; claims are settled as theorems at the end of the file.
-/

/-- Character-level model of Go `strings.ToLower` restricted to ASCII. -/
def toLowerChar (c : Char) : Char :=
  if 65 ≤ c.toNat ∧ c.toNat ≤ 90 then Char.ofNat (c.toNat + 32) else c

/-- Lower-casing of a whole string, as `strings.ToLower` does in `findTimes`. -/
def lowerStr (l : List Char) : List Char := l.map toLowerChar

/-- The ten ASCII digit characters. -/
def digitChars : List Char := ['0','1','2','3','4','5','6','7','8','9']

/-- Decimal digit character for `n % 10`; used to model Go's integer formatting. -/
def digChar (n : Nat) : Char := digitChars.getD (n % 10) '0'

/-- Model of Go's `isDigit` on ASCII bytes. -/
def isDigitChar (c : Char) : Bool := 48 ≤ c.toNat && c.toNat ≤ 57

/-- Numeric value of a digit character. -/
def digVal (c : Char) : Nat := c.toNat - 48

/-- Wall-clock UTC instant: calendar day plus seconds within the day.
Dates produced by `time.Parse` of a pure date layout carry `secs = 0`. -/
structure GoTime where
  year : Nat
  month : Nat
  day : Nat
  secs : Nat
deriving DecidableEq

/-- Go's zero `time.Time`: January 1 of year 1, 00:00:00 UTC. -/
def zeroTime : GoTime := ⟨1, 1, 1, 0⟩

/-- A pure calendar date (midnight UTC). -/
def mkDate (y m d : Nat) : GoTime := ⟨y, m, d, 0⟩

/-- Model of Go's `isLeap`. -/
def isLeap (y : Nat) : Bool := y % 4 == 0 && (y % 100 != 0 || y % 400 == 0)

/-- Model of Go's `daysIn(m, year)`. -/
def daysIn (y m : Nat) : Nat :=
  if m == 2 then (if isLeap y then 29 else 28)
  else if m == 4 || m == 6 || m == 9 || m == 11 then 30 else 31

/-- Go's `longMonthNames` table. -/
def longMonthNames : List (List Char) :=
  [['J','a','n','u','a','r','y'],
   ['F','e','b','r','u','a','r','y'],
   ['M','a','r','c','h'],
   ['A','p','r','i','l'],
   ['M','a','y'],
   ['J','u','n','e'],
   ['J','u','l','y'],
   ['A','u','g','u','s','t'],
   ['S','e','p','t','e','m','b','e','r'],
   ['O','c','t','o','b','e','r'],
   ['N','o','v','e','m','b','e','r'],
   ['D','e','c','e','m','b','e','r']]

/-- Go's `shortMonthNames` table. -/
def shortMonthNames : List (List Char) :=
  [['J','a','n'],
   ['F','e','b'],
   ['M','a','r'],
   ['A','p','r'],
   ['M','a','y'],
   ['J','u','n'],
   ['J','u','l'],
   ['A','u','g'],
   ['S','e','p'],
   ['O','c','t'],
   ['N','o','v'],
   ['D','e','c']]

/-- Case-insensitive character equality, as in Go `time`'s `match`. -/
def lowEq (a b : Char) : Bool := toLowerChar a == toLowerChar b

/-- Case-insensitive test that the first list is a prefix of the second. -/
def matchName : List Char → List Char → Bool
  | [], _ => true
  | _ :: _, [] => false
  | a :: as, b :: bs => lowEq a b && matchName as bs

/-- Model of Go `time`'s `lookup`: first table entry (1-based index reported)
that is a case-insensitive prefix of the input wins. -/
def lookupFrom : List (List Char) → Nat → List Char → Option (Nat × List Char)
  | [], _, _ => none
  | n :: rest, idx, inp =>
    if matchName n inp then some (idx, inp.drop n.length)
    else lookupFrom rest (idx + 1) inp

/-- Go `getnum` with `fixed = true` on a two-digit layout element. -/
def getNum2 : List Char → Option (Nat × List Char)
  | a :: b :: rest =>
    if isDigitChar a && isDigitChar b then some (10 * digVal a + digVal b, rest) else none
  | _ => none

/-- Go `getnum` with `fixed = false`: one or two digits. -/
def getNumFlex : List Char → Option (Nat × List Char)
  | [] => none
  | [a] => if isDigitChar a then some (digVal a, []) else none
  | a :: b :: rest =>
    if isDigitChar a then
      (if isDigitChar b then some (10 * digVal a + digVal b, rest)
       else some (digVal a, b :: rest))
    else none

/-- Go's handling of the `2006` layout element: exactly four digits. -/
def getNum4 : List Char → Option (Nat × List Char)
  | a :: b :: c :: d :: rest =>
    if isDigitChar a && isDigitChar b && isDigitChar c && isDigitChar d then
      some (1000 * digVal a + 100 * digVal b + 10 * digVal c + digVal d, rest)
    else none
  | _ => none

/-- One element of a compiled Go time layout (the chunks of `nextStdChunk`). -/
inductive LayElem where
  | lit (c : Char)
  | y4
  | m2
  | d2
  | dFlex
  | mLong
  | mShort
deriving DecidableEq

/-- Partially parsed date fields; Go `Parse` starts from year 0, January 1. -/
structure PD where
  y : Nat
  m : Nat
  d : Nat
deriving DecidableEq

/-- Initial parse state of Go `time.Parse`. -/
def pd0 : PD := ⟨0, 1, 1⟩

/-- Run a single layout element against the input. -/
def runElem : LayElem → PD → List Char → Option (PD × List Char)
  | .lit c, st, inp =>
    match inp with
    | [] => none
    | a :: rest => if a == c then some (st, rest) else none
  | .y4, st, inp =>
    match getNum4 inp with
    | none => none
    | some (n, rest) => some ({ st with y := n }, rest)
  | .m2, st, inp =>
    match getNum2 inp with
    | none => none
    | some (n, rest) => some ({ st with m := n }, rest)
  | .d2, st, inp =>
    match getNum2 inp with
    | none => none
    | some (n, rest) => some ({ st with d := n }, rest)
  | .dFlex, st, inp =>
    match getNumFlex inp with
    | none => none
    | some (n, rest) => some ({ st with d := n }, rest)
  | .mLong, st, inp =>
    match lookupFrom longMonthNames 1 inp with
    | none => none
    | some (n, rest) => some ({ st with m := n }, rest)
  | .mShort, st, inp =>
    match lookupFrom shortMonthNames 1 inp with
    | none => none
    | some (n, rest) => some ({ st with m := n }, rest)

/-- Run a whole compiled layout. -/
def runLayout : List LayElem → PD → List Char → Option (PD × List Char)
  | [], st, inp => some (st, inp)
  | e :: es, st, inp =>
    match runElem e st inp with
    | none => none
    | some (st2, rest) => runLayout es st2 rest

/-- Model of `time.Parse(layout, input)` for the date-only layouts used by the
app: all input must be consumed and the month/day ranges are validated. -/
def goParse (lay : List LayElem) (inp : List Char) : Option GoTime :=
  match runLayout lay pd0 inp with
  | some (st, []) =>
    if 1 ≤ st.m && st.m ≤ 12 && 1 ≤ st.d && st.d ≤ daysIn st.y st.m then
      some ⟨st.y, st.m, st.d, 0⟩
    else none
  | _ => none

/-- Compiled form of layout `"2006/01/02"`. -/
def lay1 : List LayElem := [.y4, .lit '/', .m2, .lit '/', .d2]

/-- Compiled form of layout `"2006-01-02"`. -/
def lay2 : List LayElem := [.y4, .lit '-', .m2, .lit '-', .d2]

/-- Compiled form of layout `"2006 January 2"`. -/
def lay3 : List LayElem := [.y4, .lit ' ', .mLong, .lit ' ', .dFlex]

/-- Compiled form of layout `"2006 Jan 2"`. -/
def lay4 : List LayElem := [.y4, .lit ' ', .mShort, .lit ' ', .dFlex]

/-- Compiled form of layout `"January 2 2006"`. -/
def lay5 : List LayElem := [.mLong, .lit ' ', .dFlex, .lit ' ', .y4]

/-- Compiled form of layout `"Jan 2 2006"`. -/
def lay6 : List LayElem := [.mShort, .lit ' ', .dFlex, .lit ' ', .y4]

/-- Compiled form of layout `"January 2, 2006"`. -/
def lay7 : List LayElem := [.mLong, .lit ' ', .dFlex, .lit ',', .lit ' ', .y4]

/-- Compiled form of layout `"Jan 2, 2006"`. -/
def lay8 : List LayElem := [.mShort, .lit ' ', .dFlex, .lit ',', .lit ' ', .y4]

/-- The `dateLayouts` list of `reminder.go`, in source order. -/
def dateLayouts : List (List LayElem) := [lay1, lay2, lay3, lay4, lay5, lay6, lay7, lay8]

/-- Drop matching characters from the tail of a list. -/
def dropTrail (p : Char → Bool) (l : List Char) : List Char := (l.reverse.dropWhile p).reverse

/-- Go `unicode.IsSpace` restricted to ASCII. -/
def goSpace (c : Char) : Bool :=
  c.toNat == 32 || c.toNat == 9 || c.toNat == 10 || c.toNat == 11 || c.toNat == 12 || c.toNat == 13

/-- Model of `strings.TrimSpace`. -/
def goTrimSpace (l : List Char) : List Char := dropTrail goSpace (l.dropWhile goSpace)

/-- Model of `strings.Trim(s, ":")`. -/
def trimColons (l : List Char) : List Char :=
  dropTrail (fun c => c == ':') (l.dropWhile (fun c => c == ':'))

/-- First layout that parses wins (the loop of `parseDate`). -/
def firstParse : List (List LayElem) → List Char → Option GoTime
  | [], _ => none
  | l :: ls, t =>
    match goParse l t with
    | some d => some d
    | none => firstParse ls t

/-- Model of `parseDate` in `reminder.go`: trim space, colons, space, then try
the layouts in order; the zero time is returned when nothing parses. -/
def parseDate (inp : List Char) : GoTime :=
  match firstParse dateLayouts (goTrimSpace (trimColons (goTrimSpace inp))) with
  | some d => d
  | none => zeroTime

/-- Byte-exact test that the first list starts the second (`strings.Index` hit). -/
def wordStarts : List Char → List Char → Bool
  | [], _ => true
  | _ :: _, [] => false
  | a :: as, b :: bs => a == b && wordStarts as bs

/-- Model of `strings.Index`: position of the first occurrence, if any. -/
def findIdxW (w : List Char) : List Char → Option Nat
  | [] => if w.isEmpty then some 0 else none
  | c :: rest =>
    if wordStarts w (c :: rest) then some 0
    else (findIdxW w rest).map (· + 1)

/-- The inner scanning loop of `findTimes` on one (already lower-cased) body.
The fuel argument strictly exceeds the remaining length, so it never runs out:
each round removes at least the keyword occurrence from the front. -/
def scanStep (w : List Char) : Nat → List Char → List GoTime
  | 0, _ => []
  | fuel + 1, body =>
    match findIdxW w body with
    | none => []
    | some i =>
      let rest := body.drop (i + w.length)
      let lb :=
        match findIdxW ['\n'] rest with
        | some j => j
        | none => rest.length
      let d := parseDate (rest.take lb)
      let tl := scanStep w fuel rest
      if d == zeroTime then tl else d :: tl

/-- Scan one body for dates announced by the keyword `w`. -/
def scanBody (w body : List Char) : List GoTime := scanStep w (body.length + 1) body

/-- Model of `findTimes(word, bodies...)` of `reminder.go`: per body, lower-case
it and scan; occurrences are collected in order, without sorting or
deduplication. -/
def findTimes (w : List Char) : List (List Char) → List GoTime
  | [] => []
  | b :: rest => scanBody w (lowerStr b) ++ findTimes w rest

/-- The keyword `"deadline"`. -/
def deadlineW : List Char := ['d','e','a','d','l','i','n','e']

/-- The keyword `"reminder"`. -/
def reminderW : List Char := ['r','e','m','i','n','d','e','r']

/-- A GitHub issue comment as carried by `client.go`'s `comment` struct. -/
structure GoComment where
  author : List Char
  body : List Char
  created : GoTime
deriving DecidableEq

/-- A GitHub issue snapshot as carried by `client.go`'s `issue` struct;
repository coordinates, number and title play no role in the claims. -/
structure GoIssue where
  author : List Char
  body : List Char
  state : List Char
  comments : List GoComment
deriving DecidableEq

/-- A side-effecting instruction the core asks the GitHub client to execute. -/
inductive Act where
  | post (text : List Char)
  | addLabel (name : List Char)
  | removeLabel (name : List Char)
deriving DecidableEq

/-- The reserved bot identity `"deadline-reminder[bot]"` checked by
`checkReminders`. -/
def botLogin : List Char :=
  ['d','e','a','d','l','i','n','e','-','r','e','m','i','n','d','e','r','[','b','o','t',']']

/-- The `"open"` issue state. -/
def openState : List Char := ['o','p','e','n']

/-- Truncation of a timestamp to its UTC day, as in
`time.Date(date.Year(), date.Month(), date.Day(), 0, 0, 0, 0, time.UTC)`. -/
def truncDay (t : GoTime) : GoTime := ⟨t.year, t.month, t.day, 0⟩

/-- Same-calendar-day test, mirroring the component comparison of
`checkReminders` (`reminder.Day() != now.Day() || ...` negated). -/
def sameDay (a b : GoTime) : Bool :=
  a.day == b.day && a.month == b.month && a.year == b.year

/-- The text `fmt.Sprintf("hi @%s, it's reminder day!", author)`. -/
def reminderText (author : List Char) : List Char :=
  ['h','i',' ','@'] ++ author ++
    [',',' ','i','t', Char.ofNat 39, 's',' ','r','e','m','i','n','d','e','r',' ','d','a','y','!']

/-- Dates on which the bot has already posted, read off the bot's own comments
(creation timestamps truncated to UTC midnight). -/
def remindedDates (cs : List GoComment) : List GoTime :=
  (cs.filter fun c => c.author == botLogin).map fun c => truncDay c.created

/-- The `check` closure of `checkReminders` applied to one body: every
extracted reminder date that falls on today and is not in the reminded set
yields one posted comment. -/
def checkBody (now : GoTime) (reminded : List GoTime) (author body : List Char) : List Act :=
  ((findTimes reminderW [body]).filter fun r =>
      sameDay r now && !(reminded.any fun x => x == r)).map fun _ =>
    Act.post (reminderText author)

/-- Model of `checkReminders`: the issue body is checked first, then every
comment, all against the reminded set computed once up front. -/
def checkReminders (now : GoTime) (iss : GoIssue) : List Act :=
  checkBody now (remindedDates iss.comments) iss.author iss.body ++
    (iss.comments.map fun c =>
      checkBody now (remindedDates iss.comments) c.author c.body).flatten

/-- A deadline label: its full name and the parsed number of days. -/
structure Label where
  Name : List Char
  Days : Int
deriving DecidableEq

/-- Value of a digit string. -/
def digitsVal (l : List Char) : Nat := l.foldl (fun acc c => 10 * acc + digVal c) 0

/-- Model of Go `strconv.Atoi`: optional sign, one or more digits, nothing
else, and the value must fit in a 64-bit int. -/
def goAtoi (l : List Char) : Option Int :=
  match l with
  | [] => none
  | c :: rest =>
    let ds := if c == '-' || c == '+' then rest else l
    if ds.isEmpty || !(ds.all isDigitChar) then none
    else
      let v : Int := if c == '-' then -(digitsVal ds : Int) else (digitsVal ds : Int)
      if -(2 ^ 63) ≤ v ∧ v ≤ 2 ^ 63 - 1 then some v else none

/-- The label name pattern `"deadline < "`. -/
def labelPre : List Char := ['d','e','a','d','l','i','n','e',' ','<',' ']

/-- One iteration of the label-collection loop of `LabelsInRepo`: keep the
name when it has the pattern as prefix and the suffix parses as an integer. -/
def parseLabel (name : List Char) : Option Label :=
  if wordStarts labelPre name then
    match goAtoi (name.drop labelPre.length) with
    | some d => some ⟨name, d⟩
    | none => none
  else none

/-- Insertion into a list sorted by `Days`. -/
def insertLabel (x : Label) : List Label → List Label
  | [] => [x]
  | y :: rest => if x.Days ≤ y.Days then x :: y :: rest else y :: insertLabel x rest

/-- Sorting by `Days`, modelling `sort.Slice(list, Days <)`. -/
def sortLabels : List Label → List Label
  | [] => []
  | x :: rest => insertLabel x (sortLabels rest)

/-- Model of the pure part of `LabelsInRepo`: filter the repository's label
names through the pattern and sort ascending by days. -/
def labelsInRepo (names : List (List Char)) : List Label :=
  sortLabels (names.filterMap parseLabel)

/-- Go's conversion `int(days)` of the real day count: truncation toward zero. -/
def goTrunc (q : ℚ) : Int := q.num.tdiv q.den

/-- The label search loop of `checkDeadlines`: index of the first label whose
`Days` exceeds the truncated day count, or the length if none does. -/
def searchIdx (d : Int) : List Label → Nat
  | [] => 0
  | l :: rest => if l.Days > d then 0 else searchIdx d rest + 1

/-- The removal loop of `checkDeadlines`: every label whose position differs
from `labelIdx` is removed, in order. -/
def removeNames (labelIdx : Int) : Nat → List Label → List (List Char)
  | _, [] => []
  | i, l :: rest =>
    if (i : Int) = labelIdx then removeNames labelIdx (i + 1) rest
    else l.Name :: removeNames labelIdx (i + 1) rest

/-- Model of `checkDeadlines` given the real-valued day count
`time.Until(deadline).Hours() / 24`: returns the removed label names and the
label applied, if any.  `labelIdx` stays `-1` unless `days > -1`. -/
def checkDeadlines (days : ℚ) (labels : List Label) : List (List Char) × Option (List Char) :=
  let labelIdx : Int := if days > -1 then (searchIdx (goTrunc days) labels : Int) else -1
  (removeNames labelIdx 0 labels,
   if labelIdx < 0 then none else (labels[labelIdx.toNat]?).map fun l => l.Name)

/-- The action list produced by `checkDeadlines`: removals in label order,
then the single addition when one is due. -/
def checkDeadlinesActions (days : ℚ) (labels : List Label) : List Act :=
  (checkDeadlines days labels).1.map Act.removeLabel ++
    match (checkDeadlines days labels).2 with
    | some n => [Act.addLabel n]
    | none => []

/-- Model of the unexported `updateIssue`: closed issues are skipped; the
reminder check runs first; the deadline logic only runs when some deadline is
mentioned, on the last mentioned one.  `daysU` abstracts
`time.Until(deadline).Hours() / 24`. -/
def updateIssueActs (daysU : GoTime → ℚ) (now : GoTime) (labels : List Label)
    (iss : GoIssue) : List Act :=
  if iss.state ≠ openState then [] else
  let rem := checkReminders now iss
  let deadlines := findTimes deadlineW (iss.body :: iss.comments.map fun c => c.body)
  match deadlines.getLast? with
  | none => rem
  | some dl => rem ++ checkDeadlinesActions (daysU dl) labels

/-- Action-level model of `UpdateRepo`: when the parsed label set is empty the
pass returns before listing issues; otherwise every listed issue is updated.
Returns the processed issue numbers and the emitted actions. -/
def updateRepoActs (daysU : GoTime → ℚ) (now : GoTime) (labelNames : List (List Char))
    (numbers : List Nat) (fetch : Nat → GoIssue) : List Nat × List Act :=
  let labels := labelsInRepo labelNames
  if labels.isEmpty then ([], [])
  else (numbers, (numbers.map fun n => updateIssueActs daysU now labels (fetch n)).flatten)

/-- Decimal rendering of an issue number. -/
def natChars (n : Nat) : List Char := Nat.toDigits 10 n

/-- The wrapping `errors.Wrapf(err, "could not handle issue %d", number)`. -/
def wrapIssueErr (n : Nat) (e : List Char) : List Char :=
  ['c','o','u','l','d',' ','n','o','t',' ','h','a','n','d','l','e',' ','i','s','s','u','e',' '] ++
    natChars n ++ [':',' '] ++ e

/-- Error-flow model of `UpdateRepo`'s issue loop: issues are attempted in
order and the loop returns on the first failing issue, wrapping its error.
Returns the attempted issue numbers and the error, if any. -/
def updateRepoIssues (f : Nat → Except (List Char) Unit) : List Nat → List Nat × Option (List Char)
  | [] => ([], none)
  | n :: rest =>
    match f n with
    | .ok _ =>
      let r := updateRepoIssues f rest
      (n :: r.1, r.2)
    | .error e => ([n], some (wrapIssueErr n e))

/-! ### Helper lemmas -/

/-- The removal loop keeps nothing once the kept index is negative. -/
theorem removeNames_neg (n : Int) (hn : n < 0) :
    ∀ (l : List Label) (i : Nat), removeNames n i l = l.map fun x => x.Name := by
  intro l
  induction l with
  | nil => intro i; simp [removeNames]
  | cons x rest ih =>
    intro i
    have hne : ¬ ((i : Nat) : Int) = n := by omega
    simp [removeNames, hne, ih]

/-- Shifting the running position of the removal loop. -/
theorem removeNames_shift (n : Int) :
    ∀ (l : List Label) (i : Nat), removeNames n (i + 1) l = removeNames (n - 1) i l := by
  intro l
  induction l with
  | nil => intro i; simp [removeNames]
  | cons x rest ih =>
    intro i
    simp only [removeNames]
    by_cases h : ((i : Nat) : Int) = n - 1
    · have h1 : ((i + 1 : Nat) : Int) = n := by push_cast; omega
      rw [if_pos h1, if_pos h, ih (i + 1)]
    · have h1 : ¬ ((i + 1 : Nat) : Int) = n := by push_cast; omega
      rw [if_neg h1, if_neg h, ih (i + 1)]

/-- The removal loop started at zero with a kept index `k` removes everything
except position `k`. -/
theorem removeNames_eraseIdx :
    ∀ (l : List Label) (k : Nat),
      removeNames (k : Int) 0 l = (l.eraseIdx k).map fun x => x.Name := by
  intro l
  induction l with
  | nil => intro k; simp [removeNames]
  | cons x rest ih =>
    intro k
    cases k with
    | zero =>
      simp only [removeNames, if_pos rfl]
      rw [removeNames_shift]
      have h1 : ((0 : Nat) : Int) - 1 = -1 := by norm_num
      rw [h1, removeNames_neg (-1) (by omega)]
      simp [List.eraseIdx]
    | succ j =>
      have hne : ¬ ((0 : Nat) : Int) = ((j + 1 : Nat) : Int) := by push_cast; omega
      simp only [removeNames]
      rw [if_neg hne, removeNames_shift]
      have h1 : ((j + 1 : Nat) : Int) - 1 = ((j : Nat) : Int) := by push_cast; omega
      rw [h1, ih j]
      simp [List.eraseIdx]

/-- The search loop of `checkDeadlines` finds exactly the first matching label. -/
theorem getElem_searchIdx (d : Int) :
    ∀ l : List Label, l[searchIdx d l]? = l.find? fun x => d < x.Days := by
  intro l
  induction l with
  | nil => simp [searchIdx]
  | cons x rest ih =>
    by_cases h : x.Days > d
    · simp [searchIdx, h, List.find?, decide_eq_true h]
    · have : ¬ (d < x.Days) := h
      simp [searchIdx, h, List.find?, decide_eq_false this, ih]

/-- Ascending order by `Days`, the shape produced by `LabelsInRepo`. -/
def sortedByDays : List Label → Bool
  | [] => true
  | [_] => true
  | x :: y :: rest => decide (x.Days ≤ y.Days) && sortedByDays (y :: rest)

/-- The label name `"deadline < 5"`. -/
def nm5 : List Char := labelPre ++ ['5']

/-- The label name `"deadline < 30"`. -/
def nm30 : List Char := labelPre ++ ['3','0']

/-- The label name `"deadline < -1"`. -/
def nmNeg : List Char := labelPre ++ ['-','1']

/-! ### Claim C4 -/

/-- C4: for every non-empty sorted label list, when `daysUntilDeadline <= -1`
the search loop never runs (`labelIdx` stays `-1`), so `checkDeadlines` keeps
no label, removes every label in the set, and emits no addition. -/
theorem c4_past_removes_all (days : ℚ) (labels : List Label)
    (hne : labels ≠ []) (hs : sortedByDays labels = true) (hd : days ≤ -1) :
    checkDeadlines days labels = (labels.map fun l => l.Name, none) := by
  have hlt : ¬ (days > -1) := not_lt.mpr hd
  simp only [checkDeadlines, if_neg hlt]
  rw [removeNames_neg (-1) (by omega)]
  simp

/-- Witness for C4 at `days = -2` and the singleton sorted list
`[deadline < 5]`. -/
theorem c4_witness :
    checkDeadlines (-2) [⟨nm5, 5⟩] = ([nm5], none) := by
  have h := c4_past_removes_all (-2) [⟨nm5, 5⟩] (by decide) (by decide) (by decide)
  simpa using h

/-! ### Claim C1 -/

/-- C1 (amended with the guard `daysUntilDeadline > -1`): whenever
`days > -1`, the label kept by `checkDeadlines` is the first one in ascending
order whose `Days` exceeds `int(days)` (none when no label qualifies), and
exactly the labels at every other position are removed, so at most one
deadline label remains. -/
theorem c1_first_match_kept (days : ℚ) (labels : List Label)
    (hs : sortedByDays labels = true) (hd : days > -1) :
    checkDeadlines days labels =
      ((labels.eraseIdx (searchIdx (goTrunc days) labels)).map fun l => l.Name,
       (labels.find? fun l => goTrunc days < l.Days).map fun l => l.Name) := by
  simp only [checkDeadlines, if_pos hd]
  rw [removeNames_eraseIdx,
    if_neg (by omega : ¬ ((searchIdx (goTrunc days) labels : Nat) : Int) < 0),
    Int.toNat_natCast, getElem_searchIdx]

/-- Witness for C1 on the sorted pair `[deadline < 5, deadline < 30]` with
`daysUntilDeadline = 3`: the kept label is `deadline < 5` and
`deadline < 30` is removed. -/
theorem c1_witness :
    checkDeadlines 3 [⟨nm5, 5⟩, ⟨nm30, 30⟩] = ([nm30], some nm5) := by
  have h := c1_first_match_kept 3 [⟨nm5, 5⟩, ⟨nm30, 30⟩] (by decide) (by decide)
  rw [h]
  decide

/-- Counterexample to C1 as stated: at `daysUntilDeadline = -2` the first
(and only) label of `[deadline < 5]` satisfies `Days > int(days)`, yet
`checkDeadlines` keeps nothing and removes it. -/
theorem c1_counterexample :
    (([⟨nm5, 5⟩] : List Label).find? fun l => goTrunc (-2) < l.Days) = some ⟨nm5, 5⟩ ∧
    (checkDeadlines (-2) [⟨nm5, 5⟩]).2 = none ∧
    (checkDeadlines (-2) [⟨nm5, 5⟩]).1 = [nm5] := by
  decide

/-! ### Claim C7 -/

/-- C7 (amended): a failing issue aborts the repository pass.  When every
issue before `n` succeeds and `n` fails, exactly the issues up to and
including `n` are attempted and the loop returns the error wrapped with the
issue number; the issues after `n` are never attempted. -/
theorem c7_first_failure_aborts (pre : List Nat) (n : Nat) (rest : List Nat)
    (f : Nat → Except (List Char) Unit) (e : List Char)
    (hpre : ∀ m ∈ pre, f m = .ok ()) (hn : f n = .error e) :
    updateRepoIssues f (pre ++ n :: rest) = (pre ++ [n], some (wrapIssueErr n e)) := by
  induction pre with
  | nil => simp [updateRepoIssues, hn]
  | cons p ps ih =>
    have hp : f p = .ok () := hpre p (by simp)
    have ih2 := ih fun m hm => hpre m (by simp [hm])
    simp [updateRepoIssues, hp, ih2]

/-- The concrete per-issue outcome used to exercise C7: issue 1 fails,
every other issue succeeds. -/
def c7fail : Nat → Except (List Char) Unit :=
  fun k => if k = 1 then .error ['b','o','o','m'] else .ok ()

/-- Witness for C7's amended statement on the issue list `[1, 2]` with
issue 1 failing. -/
theorem c7_witness :
    updateRepoIssues c7fail ([] ++ 1 :: [2]) = ([] ++ [1], some (wrapIssueErr 1 ['b','o','o','m'])) :=
  c7_first_failure_aborts [] 1 [2] c7fail ['b','o','o','m'] (by simp) rfl

/-- Counterexample to C7 as stated: with issues `[1, 2]` and issue 1
failing, issue 2 would succeed but is never attempted. -/
theorem c7_counterexample :
    (updateRepoIssues c7fail [1, 2]).1 = [1] ∧
    2 ∉ (updateRepoIssues c7fail [1, 2]).1 ∧
    c7fail 2 = .ok () := by
  refine ⟨by decide, by decide, rfl⟩

/-! ### Claim C9 -/

/-- Membership after insertion. -/
theorem mem_insertLabel (x y : Label) :
    ∀ l : List Label, y ∈ insertLabel x l ↔ y = x ∨ y ∈ l := by
  intro l
  induction l with
  | nil => simp [insertLabel]
  | cons z rest ih =>
    by_cases h : x.Days ≤ z.Days
    · simp [insertLabel, h]
    · simp [insertLabel, h, ih]
      tauto

/-- Insertion preserves ascending order by `Days`. -/
theorem sorted_insertLabel (x : Label) :
    ∀ l : List Label, List.Sorted (fun a b => a.Days ≤ b.Days) l →
      List.Sorted (fun a b => a.Days ≤ b.Days) (insertLabel x l) := by
  intro l
  induction l with
  | nil => intro _; simp [insertLabel]
  | cons z rest ih =>
    intro hs
    rw [List.sorted_cons] at hs
    by_cases h : x.Days ≤ z.Days
    · rw [insertLabel, if_pos h, List.sorted_cons]
      refine ⟨?_, List.sorted_cons.mpr hs⟩
      intro b hb
      rcases List.mem_cons.mp hb with hb | hb
      · subst hb; exact h
      · exact le_trans h (hs.1 b hb)
    · rw [insertLabel, if_neg h, List.sorted_cons]
      refine ⟨?_, ih hs.2⟩
      intro b hb
      rcases (mem_insertLabel x b rest).mp hb with hb | hb
      · subst hb; omega
      · exact hs.1 b hb

/-- Insertion permutes the cons. -/
theorem perm_insertLabel (x : Label) :
    ∀ l : List Label, (insertLabel x l).Perm (x :: l) := by
  intro l
  induction l with
  | nil => simp [insertLabel]
  | cons z rest ih =>
    by_cases h : x.Days ≤ z.Days
    · rw [insertLabel, if_pos h]
    · rw [insertLabel, if_neg h]
      exact (List.Perm.cons z ih).trans (List.Perm.swap x z rest)

/-- `sortLabels` sorts ascending by `Days`. -/
theorem sorted_sortLabels :
    ∀ l : List Label, List.Sorted (fun a b => a.Days ≤ b.Days) (sortLabels l) := by
  intro l
  induction l with
  | nil => simp [sortLabels]
  | cons x rest ih => exact sorted_insertLabel x (sortLabels rest) ih

/-- `sortLabels` permutes its input. -/
theorem perm_sortLabels : ∀ l : List Label, (sortLabels l).Perm l := by
  intro l
  induction l with
  | nil => simp [sortLabels]
  | cons x rest ih =>
    exact (perm_insertLabel x (sortLabels rest)).trans (List.Perm.cons x ih)

/-- C9 (amended): the threshold set contains exactly the names matching
`"deadline < N"` with an `Atoi`-accepted integer suffix (so non-integer
suffixes are dropped), with multiplicity preserved — no deduplication — and
sorted ascending by days; the parsed `days` value is whatever `Atoi`
returned, which may be negative. -/
theorem c9_label_set_shape (names : List (List Char)) :
    List.Sorted (fun a b => a.Days ≤ b.Days) (labelsInRepo names) ∧
    (labelsInRepo names).Perm (names.filterMap parseLabel) ∧
    ∀ l ∈ labelsInRepo names,
      wordStarts labelPre l.Name = true ∧
      goAtoi (l.Name.drop labelPre.length) = some l.Days ∧ l.Name ∈ names := by
  refine ⟨sorted_sortLabels _, perm_sortLabels _, ?_⟩
  intro l hl
  have hl2 : l ∈ names.filterMap parseLabel :=
    (perm_sortLabels (names.filterMap parseLabel)).mem_iff.mp hl
  rcases List.mem_filterMap.mp hl2 with ⟨nm, hnm, hp⟩
  rw [parseLabel] at hp
  by_cases hw : wordStarts labelPre nm = true
  · rw [if_pos hw] at hp
    rcases ha : goAtoi (nm.drop labelPre.length) with _ | d
    · rw [ha] at hp; cases hp
    · rw [ha] at hp
      cases hp
      exact ⟨hw, ha, hnm⟩
  · rw [if_neg hw] at hp; cases hp

/-- Witness for C9 applied to the single label name `"deadline < 5"`. -/
theorem c9_witness :
    wordStarts labelPre nm5 = true ∧
    goAtoi (nm5.drop labelPre.length) = some 5 ∧ nm5 ∈ [nm5] :=
  (c9_label_set_shape [nm5]).2.2 ⟨nm5, 5⟩ (by decide)

/-- Counterexample to C9 as stated: the duplicated name `"deadline < -1"`
parses (Go `Atoi` accepts a sign), so the built set keeps a negative `days`
value and keeps both copies — neither `days >= 0` nor deduplication holds. -/
theorem c9_counterexample :
    labelsInRepo [nmNeg, nmNeg] = [⟨nmNeg, -1⟩, ⟨nmNeg, -1⟩] ∧
    ¬ (labelsInRepo [nmNeg, nmNeg]).Nodup ∧
    ∃ l ∈ labelsInRepo [nmNeg, nmNeg], l.Days < 0 := by
  refine ⟨by decide, by decide, ⟨⟨nmNeg, -1⟩, by decide, by decide⟩⟩

/-! ### Claim C5 -/

/-- Scanning a concatenation of body lists concatenates the per-body results
in order. -/
theorem findTimes_append (w : List Char) (bs cs : List (List Char)) :
    findTimes w (bs ++ cs) = findTimes w bs ++ findTimes w cs := by
  induction bs with
  | nil => simp [findTimes]
  | cons b rest ih => simp [findTimes, ih]

/-- Unfolding of `findTimes` on the body list head. -/
theorem findTimes_cons (w b : List Char) (bs : List (List Char)) :
    findTimes w (b :: bs) = scanBody w (lowerStr b) ++ findTimes w bs := rfl

/-- Dates extracted from any single member body appear in the extraction of
the whole body list. -/
theorem mem_findTimes_of_mem_body (w : List Char) {r : GoTime} {b : List Char}
    {bs : List (List Char)} (hb : b ∈ bs) (hr : r ∈ findTimes w [b]) :
    r ∈ findTimes w bs := by
  induction bs with
  | nil => cases hb
  | cons c cs ih =>
    rw [findTimes_cons]
    rcases List.mem_cons.mp hb with h | h
    · subst h
      exact List.mem_append_left _ (by simpa [findTimes] using hr)
    · exact List.mem_append_right _ (ih h)

/-- The date string `"2020/05/05"`. -/
def d20200505 : List Char := ['2','0','2','0','/','0','5','/','0','5']

/-- The date string `"2020/01/01"`. -/
def d20200101 : List Char := ['2','0','2','0','/','0','1','/','0','1']

/-- The date string `"2020/01/02"`. -/
def d20200102 : List Char := ['2','0','2','0','/','0','1','/','0','2']

/-- A body mentioning the larger deadline first: `"deadline: 2020/05/05\ndeadline: 2020/01/01"`. -/
def bodyBigFirst : List Char :=
  deadlineW ++ [':',' '] ++ d20200505 ++ ['\n'] ++ deadlineW ++ [':',' '] ++ d20200101

/-- A body mentioning the smaller deadline first. -/
def bodySmallFirst : List Char :=
  deadlineW ++ [':',' '] ++ d20200101 ++ ['\n'] ++ deadlineW ++ [':',' '] ++ d20200505

/-- A body mentioning the same deadline twice. -/
def bodyDup : List Char :=
  deadlineW ++ [':',' '] ++ d20200505 ++ ['\n'] ++ deadlineW ++ [':',' '] ++ d20200505

/-- C5: the deadline timeline is neither deduplicated nor sorted — bodies
contribute in list order (first conjunct), a body with two mentions yields
the second mention last regardless of magnitude (both orderings shown), and
a repeated date stays duplicated. -/
theorem c5_timeline_order :
    (∀ (w : List Char) (bs cs : List (List Char)),
        findTimes w (bs ++ cs) = findTimes w bs ++ findTimes w cs) ∧
    findTimes deadlineW [bodyBigFirst] = [mkDate 2020 5 5, mkDate 2020 1 1] ∧
    (findTimes deadlineW [bodyBigFirst]).getLast? = some (mkDate 2020 1 1) ∧
    findTimes deadlineW [bodySmallFirst] = [mkDate 2020 1 1, mkDate 2020 5 5] ∧
    (findTimes deadlineW [bodySmallFirst]).getLast? = some (mkDate 2020 5 5) ∧
    findTimes deadlineW [bodyDup] = [mkDate 2020 5 5, mkDate 2020 5 5] :=
  ⟨findTimes_append, by decide, by decide, by decide, by decide, by decide⟩

/-! ### Claim C2 -/

/-- All reminder dates mentioned anywhere in the issue (body first, then the
comments in order), as `checkReminders` extracts them per body. -/
def mentionedReminders (iss : GoIssue) : List GoTime :=
  findTimes reminderW (iss.body :: iss.comments.map fun c => c.body)

/-- The per-body check emits nothing when every due date of that body is
already in the reminded set. -/
theorem checkBody_eq_nil (now : GoTime) (rem : List GoTime) (au b : List Char)
    (h : ∀ r ∈ findTimes reminderW [b], sameDay r now = true → r ∈ rem) :
    checkBody now rem au b = [] := by
  rw [checkBody, List.map_eq_nil_iff, List.filter_eq_nil_iff]
  intro r hr hpred
  rw [Bool.and_eq_true] at hpred
  rcases hpred with ⟨hsd, hnot⟩
  have hin : r ∈ rem := h r hr hsd
  have hany : rem.any (fun x => x == r) = true := List.any_eq_true.mpr ⟨r, hin, by simp⟩
  rw [hany] at hnot
  cases hnot

/-- C2: when every reminder date mentioned in the snapshot that is due on the
evaluation day already has a bot comment created on that same UTC day, the
reminder evaluation emits no comment at all — re-running on an unchanged
snapshot is silent. -/
theorem c2_reevaluation_silent (now : GoTime) (iss : GoIssue)
    (h : ∀ r ∈ mentionedReminders iss, sameDay r now = true →
        r ∈ remindedDates iss.comments) :
    checkReminders now iss = [] := by
  rw [checkReminders]
  have hbody : checkBody now (remindedDates iss.comments) iss.author iss.body = [] := by
    apply checkBody_eq_nil
    intro r hr hs
    exact h r (mem_findTimes_of_mem_body reminderW (List.mem_cons_self _ _) hr) hs
  rw [hbody]
  simp only [List.nil_append, List.flatten_eq_nil_iff]
  intro l hl
  rcases List.mem_map.mp hl with ⟨c, hc, rfl⟩
  apply checkBody_eq_nil
  intro r hr hs
  have hbmem : c.body ∈ iss.body :: iss.comments.map fun x => x.body :=
    List.mem_cons_of_mem _ (List.mem_map_of_mem _ hc)
  exact h r (mem_findTimes_of_mem_body reminderW hbmem hr) hs

/-- The evaluation instant used to exercise C2: 01:00 UTC on 2020-05-05. -/
def c2now : GoTime := ⟨2020, 5, 5, 3600⟩

/-- The C2 issue snapshot, mirroring `TestAvoidAddingSecondReminderComment`:
a user mentions today's reminder date and the bot has already answered with
a comment created later the same day. -/
def c2iss : GoIssue :=
  ⟨['f','r','a','n','c','e','s','c'],
   reminderW ++ [':',' '] ++ d20200505 ++ ['\n'],
   openState,
   [⟨['f','r','a','n','c','e','s','c'], reminderW ++ [':',' '] ++ d20200505 ++ ['\n'],
     ⟨2020, 5, 1, 0⟩⟩,
    ⟨botLogin, reminderText ['f','r','a','n','c','e','s','c'], ⟨2020, 5, 5, 7200⟩⟩]⟩

/-- Witness for C2 on the test scenario snapshot. -/
theorem c2_witness :
    (∀ r ∈ mentionedReminders c2iss, sameDay r c2now = true →
        r ∈ remindedDates c2iss.comments) ∧
    checkReminders c2now c2iss = [] :=
  ⟨by decide, c2_reevaluation_silent c2now c2iss (by decide)⟩

/-! ### Claim C3 -/

/-- An emitted comment always comes from an extracted date passing the
same-day filter of that body. -/
theorem exists_of_mem_checkBody {now : GoTime} {rem : List GoTime} {au b : List Char}
    {a : Act} (h : a ∈ checkBody now rem au b) :
    ∃ r ∈ findTimes reminderW [b], sameDay r now = true := by
  rw [checkBody] at h
  rcases List.mem_map.mp h with ⟨r, hr, _⟩
  rcases List.mem_filter.mp hr with ⟨hmem, hpred⟩
  rw [Bool.and_eq_true] at hpred
  exact ⟨r, hmem, hpred.1⟩

/-- The evaluation instant 23:00 UTC on 2020-01-01. -/
def c3now : GoTime := ⟨2020, 1, 1, 82800⟩

/-- An issue whose only reminder mention is `"2020/01/02"` — one hour after
`c3now`, but on the next UTC calendar day. -/
def c3iss : GoIssue :=
  ⟨['u'], reminderW ++ [':',' '] ++ d20200102 ++ ['\n'], openState, []⟩

/-- The evaluation instant 23:00 UTC on 2020-01-02, the mentioned day itself. -/
def c3now2 : GoTime := ⟨2020, 1, 2, 82800⟩

/-- C3: a reminder contributes a comment only when its year, month and day
components equal those of "now" (first conjunct); the mention of `c3iss`
lies within one hour — well inside a sliding 24-hour window — of `c3now`
yet is on the next UTC day and emits nothing, while at `c3now2`, 23 hours
past the mentioned midnight but on the same UTC day, it does emit. -/
theorem c3_same_day_gate :
    (∀ (now : GoTime) (iss : GoIssue) (a : Act), a ∈ checkReminders now iss →
        ∃ r ∈ mentionedReminders iss, sameDay r now = true) ∧
    checkReminders c3now c3iss = [] ∧
    checkReminders c3now2 c3iss = [Act.post (reminderText ['u'])] := by
  refine ⟨?_, by decide, by decide⟩
  intro now iss a ha
  rw [checkReminders] at ha
  rcases List.mem_append.mp ha with ha | ha
  · rcases exists_of_mem_checkBody ha with ⟨r, hr, hs⟩
    exact ⟨r, mem_findTimes_of_mem_body reminderW (List.mem_cons_self _ _) hr, hs⟩
  · rcases List.mem_flatten.mp ha with ⟨l, hl, hal⟩
    rcases List.mem_map.mp hl with ⟨c, hc, rfl⟩
    rcases exists_of_mem_checkBody hal with ⟨r, hr, hs⟩
    have hbmem : c.body ∈ iss.body :: iss.comments.map fun x => x.body :=
      List.mem_cons_of_mem _ (List.mem_map_of_mem _ hc)
    exact ⟨r, mem_findTimes_of_mem_body reminderW hbmem hr, hs⟩

/-- Witness for C3's universal conjunct at the same-day instance. -/
theorem c3_witness :
    ∃ r ∈ mentionedReminders c3iss, sameDay r c3now2 = true :=
  c3_same_day_gate.1 c3now2 c3iss (Act.post (reminderText ['u'])) (by decide)

/-! ### Claim C6 -/

/-- The evaluation instant midnight UTC on 2020-05-05. -/
def c6now : GoTime := ⟨2020, 5, 5, 0⟩

/-- An issue where two different comments both mention the reminder date
`"2020/05/05"` and the bot has never commented. -/
def c6iss : GoIssue :=
  ⟨['u'], ['x'], openState,
   [⟨['a'], reminderW ++ [':',' '] ++ d20200505 ++ ['\n'], ⟨2020, 5, 1, 0⟩⟩,
    ⟨['b'], reminderW ++ [':',' '] ++ d20200505 ++ ['\n'], ⟨2020, 5, 2, 0⟩⟩]⟩

/-- Counterexample to C6 as stated: the same due date mentioned in two
bodies of `c6iss` produces two comments in one pass, not at most one. -/
theorem c6_counterexample :
    ¬ ((checkReminders c6now c6iss).length ≤ 1) ∧
    checkReminders c6now c6iss =
      [Act.post (reminderText ['a']), Act.post (reminderText ['b'])] := by
  exact ⟨by decide, by decide⟩

/-- C6 (amended): a single evaluation pass emits exactly one comment per
qualifying mention occurrence — a date that is due and not covered by a bot
comment is answered once for each body mentioning it; no emitted-date set is
tracked during the pass. -/
theorem c6_per_mention_emission (now : GoTime) (iss : GoIssue) :
    (checkReminders now iss).length =
      (((iss.body :: iss.comments.map fun c => c.body).map fun b =>
        ((findTimes reminderW [b]).filter fun r =>
            sameDay r now && !((remindedDates iss.comments).any fun x => x == r)).length).sum) := by
  rw [checkReminders, List.length_append]
  simp only [List.map_cons, List.sum_cons]
  congr 1
  · simp [checkBody]
  · rw [List.length_flatten, List.map_map, List.map_map]
    refine congrArg List.sum ?_
    apply List.map_congr_left
    intro c _
    simp [checkBody]

/-! ### Claim C10 -/

/-- A day-count function for exercising the orchestration (its value is
irrelevant to the reminder path). -/
def c10daysU : GoTime → ℚ := fun _ => 0

/-- The evaluation instant midnight UTC on 2020-05-05. -/
def c10now : GoTime := ⟨2020, 5, 5, 0⟩

/-- The author of the C10 issue. -/
def c10author : List Char := ['f','r','a','n','c','e','s','c']

/-- An open issue whose body mentions today's reminder date and no deadline,
as in `TestAddFirstReminderComment` (which passes an empty label list). -/
def c10iss : GoIssue :=
  ⟨c10author, reminderW ++ [':',' '] ++ d20200505 ++ ['\n'], openState, []⟩

/-- A repository label name that does not match the deadline pattern. -/
def bugName : List Char := ['b','u','g']

/-- C10: when the parsed threshold set is empty, the repository pass returns
before listing issues — no issue is processed and no action (hence no
reminder comment) is emitted — while the single-issue entry point with the
same empty label set still runs the reminder check and posts a comment. -/
theorem c10_empty_label_guard (daysU : GoTime → ℚ) (now : GoTime)
    (labelNames : List (List Char)) (numbers : List Nat) (fetch : Nat → GoIssue)
    (h : labelsInRepo labelNames = []) :
    updateRepoActs daysU now labelNames numbers fetch = ([], []) ∧
    updateIssueActs c10daysU c10now [] c10iss = [Act.post (reminderText c10author)] := by
  refine ⟨?_, by decide⟩
  simp [updateRepoActs, h]

/-- Witness for C10 on a repository whose only label is `"bug"`. -/
theorem c10_witness :
    updateRepoActs c10daysU c10now [bugName] [1, 2] (fun _ => c10iss) = ([], []) ∧
    updateIssueActs c10daysU c10now [] c10iss = [Act.post (reminderText c10author)] :=
  c10_empty_label_guard c10daysU c10now [bugName] [1, 2] (fun _ => c10iss) (by decide)

/-! ### Claim C8 — rendering and digit lemmas -/

/-- A calendar date to be rendered and re-parsed. -/
structure GoDate where
  y : Nat
  m : Nat
  d : Nat
deriving DecidableEq

/-- A date Go's `Format`/`Parse` pair handles for the app's layouts: a
four-digit year and an in-range month and day. -/
def ValidDate (dt : GoDate) : Prop :=
  dt.y ≤ 9999 ∧ 1 ≤ dt.m ∧ dt.m ≤ 12 ∧ 1 ≤ dt.d ∧ dt.d ≤ daysIn dt.y dt.m

instance : DecidablePred ValidDate := fun dt => by
  rw [ValidDate]
  infer_instance

/-- Go `Format` of the `2006` element: the year zero-padded to four digits. -/
def pad4 (n : Nat) : List Char :=
  [digChar (n / 1000), digChar (n / 100), digChar (n / 10), digChar n]

/-- Go `Format` of the `01`/`02` elements: zero-padded to two digits. -/
def pad2 (n : Nat) : List Char := [digChar (n / 10), digChar n]

/-- Go `Format` of the `2` element: no padding (day counts stay below 100). -/
def noPad (n : Nat) : List Char :=
  if n < 10 then [digChar n] else [digChar (n / 10), digChar n]

/-- The month name used by `Format` for the `January` element. -/
def monthLong (m : Nat) : List Char := longMonthNames.getD (m - 1) []

/-- The month name used by `Format` for the `Jan` element. -/
def monthShort (m : Nat) : List Char := shortMonthNames.getD (m - 1) []

/-- Go `Format` output of a date under each of the eight `dateLayouts`
(indexes 0–7 in source order). -/
def render : Nat → GoDate → List Char
  | 0, dt => pad4 dt.y ++ ('/' :: (pad2 dt.m ++ ('/' :: pad2 dt.d)))
  | 1, dt => pad4 dt.y ++ ('-' :: (pad2 dt.m ++ ('-' :: pad2 dt.d)))
  | 2, dt => pad4 dt.y ++ (' ' :: (monthLong dt.m ++ (' ' :: noPad dt.d)))
  | 3, dt => pad4 dt.y ++ (' ' :: (monthShort dt.m ++ (' ' :: noPad dt.d)))
  | 4, dt => monthLong dt.m ++ (' ' :: (noPad dt.d ++ (' ' :: pad4 dt.y)))
  | 5, dt => monthShort dt.m ++ (' ' :: (noPad dt.d ++ (' ' :: pad4 dt.y)))
  | 6, dt => monthLong dt.m ++ (' ' :: (noPad dt.d ++ (',' :: (' ' :: pad4 dt.y))))
  | 7, dt => monthShort dt.m ++ (' ' :: (noPad dt.d ++ (',' :: (' ' :: pad4 dt.y))))
  | _, _ => []

/-- Digit characters are digits. -/
theorem isDigitChar_digChar (n : Nat) : isDigitChar (digChar n) = true := by
  have hlt : n % 10 < 10 := Nat.mod_lt _ (by norm_num)
  rw [digChar]
  revert hlt
  generalize n % 10 = k
  intro hlt
  interval_cases k <;> decide

/-- Value of a rendered digit. -/
theorem digVal_digChar (n : Nat) : digVal (digChar n) = n % 10 := by
  have hlt : n % 10 < 10 := Nat.mod_lt _ (by norm_num)
  rw [digChar]
  revert hlt
  generalize n % 10 = k
  intro hlt
  interval_cases k <;> decide

/-- Digits are unchanged by lower-casing. -/
theorem lower_digChar (n : Nat) : toLowerChar (digChar n) = digChar n := by
  have hlt : n % 10 < 10 := Nat.mod_lt _ (by norm_num)
  rw [digChar]
  revert hlt
  generalize n % 10 = k
  intro hlt
  interval_cases k <;> decide

/-- Digits are not spaces. -/
theorem goSpace_digChar (n : Nat) : goSpace (digChar n) = false := by
  have hlt : n % 10 < 10 := Nat.mod_lt _ (by norm_num)
  rw [digChar]
  revert hlt
  generalize n % 10 = k
  intro hlt
  interval_cases k <;> decide

/-- Digits are not colons. -/
theorem colon_digChar (n : Nat) : (digChar n == ':') = false := by
  have hlt : n % 10 < 10 := Nat.mod_lt _ (by norm_num)
  rw [digChar]
  revert hlt
  generalize n % 10 = k
  intro hlt
  interval_cases k <;> decide

/-- The letter `d` is not a digit character. -/
theorem dCh_ne_digChar (n : Nat) : ('d' == digChar n) = false := by
  have hlt : n % 10 < 10 := Nat.mod_lt _ (by norm_num)
  rw [digChar]
  revert hlt
  generalize n % 10 = k
  intro hlt
  interval_cases k <;> decide

/-- The newline character is not a digit character. -/
theorem nlCh_ne_digChar (n : Nat) : ('\n' == digChar n) = false := by
  have hlt : n % 10 < 10 := Nat.mod_lt _ (by norm_num)
  rw [digChar]
  revert hlt
  generalize n % 10 = k
  intro hlt
  interval_cases k <;> decide

/-! ### Claim C8 — parsing the rendered numeric fields -/

/-- A four-digit-padded year parses back to itself. -/
theorem getNum4_pad4 {y : Nat} {rest : List Char} (hy : y ≤ 9999) :
    getNum4 (pad4 y ++ rest) = some (y, rest) := by
  simp only [pad4, List.cons_append, List.nil_append, getNum4]
  rw [if_pos (by simp [isDigitChar_digChar])]
  simp only [digVal_digChar]
  have hval : 1000 * (y / 1000 % 10) + 100 * (y / 100 % 10) + 10 * (y / 10 % 10) + y % 10 = y := by
    omega
  rw [hval]

/-- A two-digit-padded field parses back to itself. -/
theorem getNum2_pad2 {n : Nat} {rest : List Char} (hn : n < 100) :
    getNum2 (pad2 n ++ rest) = some (n, rest) := by
  simp only [pad2, List.cons_append, List.nil_append, getNum2]
  rw [if_pos (by simp [isDigitChar_digChar])]
  simp only [digVal_digChar]
  have hval : 10 * (n / 10 % 10) + n % 10 = n := by omega
  rw [hval]

/-- An unpadded day parses back to itself when not followed by a digit. -/
theorem getNumFlex_noPad {d : Nat} {rest : List Char} (h1 : 1 ≤ d) (h2 : d ≤ 31)
    (hrest : rest = [] ∨ ∃ c cs, rest = c :: cs ∧ isDigitChar c = false) :
    getNumFlex (noPad d ++ rest) = some (d, rest) := by
  by_cases hd : d < 10
  · rw [noPad, if_pos hd]
    rcases hrest with rfl | ⟨c, cs, rfl, hc⟩
    · simp only [List.cons_append, List.nil_append, getNumFlex]
      rw [if_pos (isDigitChar_digChar d), digVal_digChar]
      rw [Nat.mod_eq_of_lt hd]
    · simp only [List.cons_append, List.nil_append, getNumFlex]
      rw [if_pos (isDigitChar_digChar d), if_neg (by rw [hc]; exact fun hcc => Bool.noConfusion hcc)]
      rw [digVal_digChar, Nat.mod_eq_of_lt hd]
  · rw [noPad, if_neg hd]
    simp only [List.cons_append, List.nil_append, getNumFlex]
    rw [if_pos (isDigitChar_digChar (d / 10)), if_pos (isDigitChar_digChar d)]
    simp only [digVal_digChar]
    have hval : 10 * (d / 10 % 10) + d % 10 = d := by omega
    rw [hval]

/-- `getNum4` fails as soon as the first character is not a digit. -/
theorem getNum4_fail_head {c : Char} {l : List Char} (h : isDigitChar c = false) :
    getNum4 (c :: l) = none := by
  rcases l with _ | ⟨b, _ | ⟨c2, _ | ⟨d2, rest⟩⟩⟩ <;> simp [getNum4, h]

/-! ### Claim C8 — layout element steps -/

/-- Successful year element. -/
theorem runLayout_y4 {es : List LayElem} {st : PD} {y : Nat} {rest : List Char}
    (hy : y ≤ 9999) :
    runLayout (.y4 :: es) st (pad4 y ++ rest) = runLayout es { st with y := y } rest := by
  simp [runLayout, runElem, getNum4_pad4 hy]

/-- Failing year element on a non-digit head. -/
theorem runLayout_y4_fail {es : List LayElem} {st : PD} {c : Char} {l : List Char}
    (h : isDigitChar c = false) :
    runLayout (.y4 :: es) st (c :: l) = none := by
  simp [runLayout, runElem, getNum4_fail_head h]

/-- Successful two-digit month element. -/
theorem runLayout_m2 {es : List LayElem} {st : PD} {n : Nat} {rest : List Char}
    (hn : n < 100) :
    runLayout (.m2 :: es) st (pad2 n ++ rest) = runLayout es { st with m := n } rest := by
  simp [runLayout, runElem, getNum2_pad2 hn]

/-- Successful two-digit day element. -/
theorem runLayout_d2 {es : List LayElem} {st : PD} {n : Nat} {rest : List Char}
    (hn : n < 100) :
    runLayout (.d2 :: es) st (pad2 n ++ rest) = runLayout es { st with d := n } rest := by
  simp [runLayout, runElem, getNum2_pad2 hn]

/-- Successful flexible day element. -/
theorem runLayout_dFlex {es : List LayElem} {st : PD} {d : Nat} {rest : List Char}
    (h1 : 1 ≤ d) (h2 : d ≤ 31)
    (hrest : rest = [] ∨ ∃ c cs, rest = c :: cs ∧ isDigitChar c = false) :
    runLayout (.dFlex :: es) st (noPad d ++ rest) = runLayout es { st with d := d } rest := by
  simp [runLayout, runElem, getNumFlex_noPad h1 h2 hrest]

/-- Successful literal element. -/
theorem runLayout_lit {es : List LayElem} {st : PD} {c : Char} {rest : List Char} :
    runLayout (.lit c :: es) st (c :: rest) = runLayout es st rest := by
  simp [runLayout, runElem]

/-- Failing literal element. -/
theorem runLayout_lit_ne {es : List LayElem} {st : PD} (a c : Char) {rest : List Char}
    (h : (a == c) = false) :
    runLayout (.lit c :: es) st (a :: rest) = none := by
  simp [runLayout, runElem, h]

/-! ### Claim C8 — month name steps -/

/-- What remains of a lower-cased long month name after its three-letter
abbreviation has been consumed. -/
def lowerTail (m : Nat) : List Char := (lowerStr (monthLong m)).drop 3

/-- The long-month element consumes exactly the rendered long name. -/
theorem runLayout_mLong {es : List LayElem} {st : PD} {rest : List Char} {m : Nat}
    (h1 : 1 ≤ m) (h2 : m ≤ 12) :
    runLayout (.mLong :: es) st (lowerStr (monthLong m) ++ rest) =
      runLayout es { st with m := m } rest := by
  interval_cases m <;> rfl

/-- The short-month element consumes exactly the rendered short name. -/
theorem runLayout_mShort {es : List LayElem} {st : PD} {rest : List Char} {m : Nat}
    (h1 : 1 ≤ m) (h2 : m ≤ 12) :
    runLayout (.mShort :: es) st (lowerStr (monthShort m) ++ rest) =
      runLayout es { st with m := m } rest := by
  interval_cases m <;> rfl

/-- Except for May — whose long and short names coincide — no long month
name matches a rendered short name followed by a space. -/
theorem runLayout_mLong_on_short {es : List LayElem} {st : PD} {rest : List Char} {m : Nat}
    (h1 : 1 ≤ m) (h2 : m ≤ 12) (h5 : m ≠ 5) :
    runLayout (.mLong :: es) st (lowerStr (monthShort m) ++ ' ' :: rest) = none := by
  interval_cases m <;> first | rfl | exact absurd rfl h5

/-- The short-month element matches the first three letters of a rendered
long name and leaves the name's tail unconsumed. -/
theorem runLayout_mShort_on_long {es : List LayElem} {st : PD} {rest : List Char} {m : Nat}
    (h1 : 1 ≤ m) (h2 : m ≤ 12) :
    runLayout (.mShort :: es) st (lowerStr (monthLong m) ++ rest) =
      runLayout es { st with m := m } (lowerTail m ++ rest) := by
  interval_cases m <;> rfl

/-- After a short-month match inside a long name other than May, the next
literal space fails on the leftover letters. -/
theorem runLayout_sp_on_lowerTail {es : List LayElem} {st : PD} {rest : List Char} {m : Nat}
    (h1 : 1 ≤ m) (h2 : m ≤ 12) (h5 : m ≠ 5) :
    runLayout (.lit ' ' :: es) st (lowerTail m ++ rest) = none := by
  interval_cases m <;> first | rfl | exact absurd rfl h5

/-- The year element fails on a rendered long month name. -/
theorem runLayout_y4_on_long {es : List LayElem} {st : PD} {rest : List Char} {m : Nat}
    (h1 : 1 ≤ m) (h2 : m ≤ 12) :
    runLayout (.y4 :: es) st (lowerStr (monthLong m) ++ rest) = none := by
  interval_cases m <;> exact runLayout_y4_fail rfl

/-- The year element fails on a rendered short month name. -/
theorem runLayout_y4_on_short {es : List LayElem} {st : PD} {rest : List Char} {m : Nat}
    (h1 : 1 ≤ m) (h2 : m ≤ 12) :
    runLayout (.y4 :: es) st (lowerStr (monthShort m) ++ rest) = none := by
  interval_cases m <;> exact runLayout_y4_fail rfl

/-- The long-month element fails on a digit head. -/
theorem runLayout_mLong_on_digit {es : List LayElem} {st : PD} {n : Nat} {l : List Char} :
    runLayout (.mLong :: es) st (digChar n :: l) = none := by
  have hlt : n % 10 < 10 := Nat.mod_lt _ (by norm_num)
  rw [digChar]
  revert hlt
  generalize n % 10 = k
  intro hlt
  interval_cases k <;> rfl

/-- The short-month element fails on a digit head. -/
theorem runLayout_mShort_on_digit {es : List LayElem} {st : PD} {n : Nat} {l : List Char} :
    runLayout (.mShort :: es) st (digChar n :: l) = none := by
  have hlt : n % 10 < 10 := Nat.mod_lt _ (by norm_num)
  rw [digChar]
  revert hlt
  generalize n % 10 = k
  intro hlt
  interval_cases k <;> rfl

/-! ### Claim C8 — trimming and parse glue -/

/-- `dropWhile` stops at a non-matching head. -/
theorem dropWhile_cons_false {p : Char → Bool} {a : Char} {l : List Char} (h : p a = false) :
    List.dropWhile p (a :: l) = a :: l := by
  rw [List.dropWhile_cons, if_neg]
  simp [h]

/-- `dropTrail` stops at a non-matching last element. -/
theorem dropTrail_last {p : Char → Bool} {l : List Char} {c : Char} (h : p c = false) :
    dropTrail p (l ++ [c]) = l ++ [c] := by
  rw [dropTrail, show (l ++ [c]).reverse = c :: l.reverse from by simp]
  rw [dropWhile_cons_false h]
  simp

/-- The trimming pipeline of `parseDate` leaves a date text alone once its
first and last characters are neither spaces nor colons, and strips exactly
the space that separated it from the keyword. -/
theorem trim_ready {X : List Char} {a c : Char} {T L : List Char}
    (hhead : X = a :: T) (hlast : X = L ++ [c])
    (ha1 : goSpace a = false) (ha2 : (a == ':') = false)
    (hc1 : goSpace c = false) (hc2 : (c == ':') = false) :
    goTrimSpace (trimColons (goTrimSpace (' ' :: X))) = X := by
  have hX : ∀ p : Char → Bool, p a = false → p c = false →
      dropTrail p (X.dropWhile p) = X := by
    intro p hpa hpc
    conv_lhs => rw [hhead, dropWhile_cons_false hpa, ← hhead, hlast]
    rw [dropTrail_last hpc, ← hlast]
  have h1 : goTrimSpace (' ' :: X) = X := by
    rw [goTrimSpace, List.dropWhile_cons, if_pos (show goSpace ' ' = true from rfl)]
    exact hX goSpace ha1 hc1
  have h2 : trimColons X = X := hX _ ha2 hc2
  have h3 : goTrimSpace X = X := hX goSpace ha1 hc1
  rw [h1, h2, h3]

/-- `parseDate` on a keyword remainder reduces to the layout cascade once
the text is trim-clean. -/
theorem parseDate_sp {X : List Char} {a c : Char} {T L : List Char} {t : GoTime}
    (hhead : X = a :: T) (hlast : X = L ++ [c])
    (ha1 : goSpace a = false) (ha2 : (a == ':') = false)
    (hc1 : goSpace c = false) (hc2 : (c == ':') = false)
    (hp : firstParse dateLayouts X = some t) :
    parseDate (' ' :: X) = t := by
  rw [parseDate, trim_ready hhead hlast ha1 ha2 hc1 hc2, hp]

/-- A layout whose run fails parses to nothing. -/
theorem goParse_none {lay : List LayElem} {inp : List Char}
    (h : runLayout lay pd0 inp = none) : goParse lay inp = none := by
  rw [goParse, h]

/-- A layout whose run consumes everything yields the validated date. -/
theorem goParse_full {lay : List LayElem} {inp : List Char} {y m d : Nat}
    (h : runLayout lay pd0 inp = some (⟨y, m, d⟩, []))
    (hm1 : 1 ≤ m) (hm2 : m ≤ 12) (hd1 : 1 ≤ d) (hd2 : d ≤ daysIn y m) :
    goParse lay inp = some ⟨y, m, d, 0⟩ := by
  rw [goParse, h]
  dsimp only
  rw [if_pos]
  simp only [Bool.and_eq_true, decide_eq_true_eq]
  exact ⟨⟨⟨hm1, hm2⟩, hd1⟩, hd2⟩

/-- A failing layout is skipped by the cascade. -/
theorem firstParse_skip {lay : List LayElem} {ls : List (List LayElem)} {t : List Char}
    (h : goParse lay t = none) : firstParse (lay :: ls) t = firstParse ls t := by
  rw [firstParse, h]

/-- A succeeding layout ends the cascade. -/
theorem firstParse_hit {lay : List LayElem} {ls : List (List LayElem)} {t : List Char}
    {d : GoTime} (h : goParse lay t = some d) : firstParse (lay :: ls) t = some d := by
  rw [firstParse, h]

/-- Every month length is at most 31. -/
theorem daysIn_le (y m : Nat) : daysIn y m ≤ 31 := by
  rw [daysIn]
  split
  · split <;> omega
  · split <;> omega

/-! ### Claim C8 — lower-casing the rendered text -/

/-- Lower-casing distributes over concatenation. -/
theorem lowerStr_append (a b : List Char) : lowerStr (a ++ b) = lowerStr a ++ lowerStr b :=
  List.map_append _ _ _

/-- Lower-casing unfolds on a cons cell. -/
theorem lowerStr_cons (c : Char) (l : List Char) :
    lowerStr (c :: l) = toLowerChar c :: lowerStr l := rfl

/-- Rendered years are lower-case already. -/
theorem lowerStr_pad4 (n : Nat) : lowerStr (pad4 n) = pad4 n := by
  simp [pad4, lowerStr, lower_digChar]

/-- Rendered two-digit fields are lower-case already. -/
theorem lowerStr_pad2 (n : Nat) : lowerStr (pad2 n) = pad2 n := by
  simp [pad2, lowerStr, lower_digChar]

/-- Rendered days are lower-case already. -/
theorem lowerStr_noPad (n : Nat) : lowerStr (noPad n) = noPad n := by
  by_cases h : n < 10 <;> simp [noPad, h, lowerStr, lower_digChar]

/-- Slashes are unchanged by lower-casing. -/
theorem lower_slash : toLowerChar '/' = '/' := rfl

/-- Dashes are unchanged by lower-casing. -/
theorem lower_dash : toLowerChar '-' = '-' := rfl

/-- Commas are unchanged by lower-casing. -/
theorem lower_comma : toLowerChar ',' = ',' := rfl

/-- Spaces are unchanged by lower-casing. -/
theorem lower_space : toLowerChar ' ' = ' ' := rfl

/-- Lower-casing the scanned body keeps the keyword and the space. -/
theorem lower_keyword (R : List Char) :
    lowerStr (deadlineW ++ ' ' :: R) = deadlineW ++ ' ' :: lowerStr R := by
  rw [show deadlineW ++ ' ' :: R = (deadlineW ++ [' ']) ++ R from by simp]
  rw [lowerStr_append, show lowerStr (deadlineW ++ [' ']) = deadlineW ++ [' '] from by decide]
  simp

/-! ### Claim C8 — the cascade on each rendered format -/

/-- Layout 1 round-trips format 0 (`2006/01/02`). -/
theorem parse_fmt0 (dt : GoDate) (hv : ValidDate dt) :
    firstParse dateLayouts (pad4 dt.y ++ ('/' :: (pad2 dt.m ++ ('/' :: pad2 dt.d)))) =
      some (mkDate dt.y dt.m dt.d) := by
  obtain ⟨hy, hm1, hm2, hd1, hd2⟩ := hv
  have hrun : runLayout lay1 pd0 (pad4 dt.y ++ ('/' :: (pad2 dt.m ++ ('/' :: pad2 dt.d)))) =
      some (⟨dt.y, dt.m, dt.d⟩, []) := by
    rw [lay1, runLayout_y4 hy, runLayout_lit, runLayout_m2 (by omega), runLayout_lit]
    rw [show pad2 dt.d = pad2 dt.d ++ [] from (List.append_nil _).symm]
    rw [runLayout_d2 (by have := daysIn_le dt.y dt.m; omega)]
    rfl
  rw [dateLayouts, firstParse_hit (goParse_full hrun hm1 hm2 hd1 hd2)]
  rfl

/-- Layout 2 round-trips format 1 (`2006-01-02`), after layout 1 fails on
the dash. -/
theorem parse_fmt1 (dt : GoDate) (hv : ValidDate dt) :
    firstParse dateLayouts (pad4 dt.y ++ ('-' :: (pad2 dt.m ++ ('-' :: pad2 dt.d)))) =
      some (mkDate dt.y dt.m dt.d) := by
  obtain ⟨hy, hm1, hm2, hd1, hd2⟩ := hv
  have h1 : runLayout lay1 pd0 (pad4 dt.y ++ ('-' :: (pad2 dt.m ++ ('-' :: pad2 dt.d)))) = none := by
    rw [lay1, runLayout_y4 hy, runLayout_lit_ne '-' '/' rfl]
  have hrun : runLayout lay2 pd0 (pad4 dt.y ++ ('-' :: (pad2 dt.m ++ ('-' :: pad2 dt.d)))) =
      some (⟨dt.y, dt.m, dt.d⟩, []) := by
    rw [lay2, runLayout_y4 hy, runLayout_lit, runLayout_m2 (by omega), runLayout_lit]
    rw [show pad2 dt.d = pad2 dt.d ++ [] from (List.append_nil _).symm]
    rw [runLayout_d2 (by have := daysIn_le dt.y dt.m; omega)]
    rfl
  rw [dateLayouts, firstParse_skip (goParse_none h1),
    firstParse_hit (goParse_full hrun hm1 hm2 hd1 hd2)]
  rfl

/-- Layout 3 round-trips format 2 (`2006 January 2`). -/
theorem parse_fmt2 (dt : GoDate) (hv : ValidDate dt) :
    firstParse dateLayouts (pad4 dt.y ++ (' ' :: (lowerStr (monthLong dt.m) ++ (' ' :: noPad dt.d)))) =
      some (mkDate dt.y dt.m dt.d) := by
  obtain ⟨hy, hm1, hm2, hd1, hd2⟩ := hv
  have hd31 : dt.d ≤ 31 := le_trans hd2 (daysIn_le _ _)
  have h1 : runLayout lay1 pd0
      (pad4 dt.y ++ (' ' :: (lowerStr (monthLong dt.m) ++ (' ' :: noPad dt.d)))) = none := by
    rw [lay1, runLayout_y4 hy, runLayout_lit_ne ' ' '/' rfl]
  have h2 : runLayout lay2 pd0
      (pad4 dt.y ++ (' ' :: (lowerStr (monthLong dt.m) ++ (' ' :: noPad dt.d)))) = none := by
    rw [lay2, runLayout_y4 hy, runLayout_lit_ne ' ' '-' rfl]
  have hrun : runLayout lay3 pd0
      (pad4 dt.y ++ (' ' :: (lowerStr (monthLong dt.m) ++ (' ' :: noPad dt.d)))) =
      some (⟨dt.y, dt.m, dt.d⟩, []) := by
    rw [lay3, runLayout_y4 hy, runLayout_lit, runLayout_mLong hm1 hm2, runLayout_lit]
    rw [show noPad dt.d = noPad dt.d ++ [] from (List.append_nil _).symm]
    rw [runLayout_dFlex hd1 hd31 (Or.inl rfl)]
    rfl
  rw [dateLayouts, firstParse_skip (goParse_none h1), firstParse_skip (goParse_none h2),
    firstParse_hit (goParse_full hrun hm1 hm2 hd1 hd2)]
  rfl

/-- Layouts 3 and 4 together round-trip format 3 (`2006 Jan 2`): for May the
long-month layout already matches (long and short names coincide), otherwise
layout 4 does. -/
theorem parse_fmt3 (dt : GoDate) (hv : ValidDate dt) :
    firstParse dateLayouts (pad4 dt.y ++ (' ' :: (lowerStr (monthShort dt.m) ++ (' ' :: noPad dt.d)))) =
      some (mkDate dt.y dt.m dt.d) := by
  obtain ⟨hy, hm1, hm2, hd1, hd2⟩ := hv
  have hd31 : dt.d ≤ 31 := le_trans hd2 (daysIn_le _ _)
  have h1 : runLayout lay1 pd0
      (pad4 dt.y ++ (' ' :: (lowerStr (monthShort dt.m) ++ (' ' :: noPad dt.d)))) = none := by
    rw [lay1, runLayout_y4 hy, runLayout_lit_ne ' ' '/' rfl]
  have h2 : runLayout lay2 pd0
      (pad4 dt.y ++ (' ' :: (lowerStr (monthShort dt.m) ++ (' ' :: noPad dt.d)))) = none := by
    rw [lay2, runLayout_y4 hy, runLayout_lit_ne ' ' '-' rfl]
  by_cases hm5 : dt.m = 5
  · have hrun : runLayout lay3 pd0
        (pad4 dt.y ++ (' ' :: (lowerStr (monthShort dt.m) ++ (' ' :: noPad dt.d)))) =
        some (⟨dt.y, dt.m, dt.d⟩, []) := by
      rw [hm5, lay3, runLayout_y4 hy, runLayout_lit]
      rw [show lowerStr (monthShort 5) = lowerStr (monthLong 5) from rfl]
      rw [runLayout_mLong (by omega) (by omega), runLayout_lit]
      rw [show noPad dt.d = noPad dt.d ++ [] from (List.append_nil _).symm]
      rw [runLayout_dFlex hd1 hd31 (Or.inl rfl)]
      rfl
    rw [dateLayouts, firstParse_skip (goParse_none h1), firstParse_skip (goParse_none h2),
      firstParse_hit (goParse_full hrun hm1 hm2 hd1 hd2)]
    rfl
  · have h3 : runLayout lay3 pd0
        (pad4 dt.y ++ (' ' :: (lowerStr (monthShort dt.m) ++ (' ' :: noPad dt.d)))) = none := by
      rw [lay3, runLayout_y4 hy, runLayout_lit, runLayout_mLong_on_short hm1 hm2 hm5]
    have hrun : runLayout lay4 pd0
        (pad4 dt.y ++ (' ' :: (lowerStr (monthShort dt.m) ++ (' ' :: noPad dt.d)))) =
        some (⟨dt.y, dt.m, dt.d⟩, []) := by
      rw [lay4, runLayout_y4 hy, runLayout_lit, runLayout_mShort hm1 hm2, runLayout_lit]
      rw [show noPad dt.d = noPad dt.d ++ [] from (List.append_nil _).symm]
      rw [runLayout_dFlex hd1 hd31 (Or.inl rfl)]
      rfl
    rw [dateLayouts, firstParse_skip (goParse_none h1), firstParse_skip (goParse_none h2),
      firstParse_skip (goParse_none h3), firstParse_hit (goParse_full hrun hm1 hm2 hd1 hd2)]
    rfl

/-- Layout 5 round-trips format 4 (`January 2 2006`). -/
theorem parse_fmt4 (dt : GoDate) (hv : ValidDate dt) :
    firstParse dateLayouts (lowerStr (monthLong dt.m) ++ (' ' :: (noPad dt.d ++ (' ' :: pad4 dt.y)))) =
      some (mkDate dt.y dt.m dt.d) := by
  obtain ⟨hy, hm1, hm2, hd1, hd2⟩ := hv
  have hd31 : dt.d ≤ 31 := le_trans hd2 (daysIn_le _ _)
  have e1 : runLayout lay1 pd0
      (lowerStr (monthLong dt.m) ++ (' ' :: (noPad dt.d ++ (' ' :: pad4 dt.y)))) = none := by
    rw [lay1]; exact runLayout_y4_on_long hm1 hm2
  have e2 : runLayout lay2 pd0
      (lowerStr (monthLong dt.m) ++ (' ' :: (noPad dt.d ++ (' ' :: pad4 dt.y)))) = none := by
    rw [lay2]; exact runLayout_y4_on_long hm1 hm2
  have e3 : runLayout lay3 pd0
      (lowerStr (monthLong dt.m) ++ (' ' :: (noPad dt.d ++ (' ' :: pad4 dt.y)))) = none := by
    rw [lay3]; exact runLayout_y4_on_long hm1 hm2
  have e4 : runLayout lay4 pd0
      (lowerStr (monthLong dt.m) ++ (' ' :: (noPad dt.d ++ (' ' :: pad4 dt.y)))) = none := by
    rw [lay4]; exact runLayout_y4_on_long hm1 hm2
  have hrun : runLayout lay5 pd0
      (lowerStr (monthLong dt.m) ++ (' ' :: (noPad dt.d ++ (' ' :: pad4 dt.y)))) =
      some (⟨dt.y, dt.m, dt.d⟩, []) := by
    rw [lay5, runLayout_mLong hm1 hm2, runLayout_lit,
      runLayout_dFlex hd1 hd31 (Or.inr ⟨' ', pad4 dt.y, rfl, rfl⟩), runLayout_lit]
    rw [show pad4 dt.y = pad4 dt.y ++ [] from (List.append_nil _).symm, runLayout_y4 hy]
    rfl
  rw [dateLayouts, firstParse_skip (goParse_none e1), firstParse_skip (goParse_none e2),
    firstParse_skip (goParse_none e3), firstParse_skip (goParse_none e4),
    firstParse_hit (goParse_full hrun hm1 hm2 hd1 hd2)]
  rfl

/-- Layouts 5 and 6 together round-trip format 5 (`Jan 2 2006`). -/
theorem parse_fmt5 (dt : GoDate) (hv : ValidDate dt) :
    firstParse dateLayouts (lowerStr (monthShort dt.m) ++ (' ' :: (noPad dt.d ++ (' ' :: pad4 dt.y)))) =
      some (mkDate dt.y dt.m dt.d) := by
  obtain ⟨hy, hm1, hm2, hd1, hd2⟩ := hv
  have hd31 : dt.d ≤ 31 := le_trans hd2 (daysIn_le _ _)
  have e1 : runLayout lay1 pd0
      (lowerStr (monthShort dt.m) ++ (' ' :: (noPad dt.d ++ (' ' :: pad4 dt.y)))) = none := by
    rw [lay1]; exact runLayout_y4_on_short hm1 hm2
  have e2 : runLayout lay2 pd0
      (lowerStr (monthShort dt.m) ++ (' ' :: (noPad dt.d ++ (' ' :: pad4 dt.y)))) = none := by
    rw [lay2]; exact runLayout_y4_on_short hm1 hm2
  have e3 : runLayout lay3 pd0
      (lowerStr (monthShort dt.m) ++ (' ' :: (noPad dt.d ++ (' ' :: pad4 dt.y)))) = none := by
    rw [lay3]; exact runLayout_y4_on_short hm1 hm2
  have e4 : runLayout lay4 pd0
      (lowerStr (monthShort dt.m) ++ (' ' :: (noPad dt.d ++ (' ' :: pad4 dt.y)))) = none := by
    rw [lay4]; exact runLayout_y4_on_short hm1 hm2
  by_cases hm5 : dt.m = 5
  · have hrun : runLayout lay5 pd0
        (lowerStr (monthShort dt.m) ++ (' ' :: (noPad dt.d ++ (' ' :: pad4 dt.y)))) =
        some (⟨dt.y, dt.m, dt.d⟩, []) := by
      rw [hm5, lay5, show lowerStr (monthShort 5) = lowerStr (monthLong 5) from rfl]
      rw [runLayout_mLong (by omega) (by omega), runLayout_lit,
        runLayout_dFlex hd1 hd31 (Or.inr ⟨' ', pad4 dt.y, rfl, rfl⟩), runLayout_lit]
      rw [show pad4 dt.y = pad4 dt.y ++ [] from (List.append_nil _).symm, runLayout_y4 hy]
      rfl
    rw [dateLayouts, firstParse_skip (goParse_none e1), firstParse_skip (goParse_none e2),
      firstParse_skip (goParse_none e3), firstParse_skip (goParse_none e4),
      firstParse_hit (goParse_full hrun hm1 hm2 hd1 hd2)]
    rfl
  · have h5 : runLayout lay5 pd0
        (lowerStr (monthShort dt.m) ++ (' ' :: (noPad dt.d ++ (' ' :: pad4 dt.y)))) = none := by
      rw [lay5, runLayout_mLong_on_short hm1 hm2 hm5]
    have hrun : runLayout lay6 pd0
        (lowerStr (monthShort dt.m) ++ (' ' :: (noPad dt.d ++ (' ' :: pad4 dt.y)))) =
        some (⟨dt.y, dt.m, dt.d⟩, []) := by
      rw [lay6, runLayout_mShort hm1 hm2, runLayout_lit,
        runLayout_dFlex hd1 hd31 (Or.inr ⟨' ', pad4 dt.y, rfl, rfl⟩), runLayout_lit]
      rw [show pad4 dt.y = pad4 dt.y ++ [] from (List.append_nil _).symm, runLayout_y4 hy]
      rfl
    rw [dateLayouts, firstParse_skip (goParse_none e1), firstParse_skip (goParse_none e2),
      firstParse_skip (goParse_none e3), firstParse_skip (goParse_none e4),
      firstParse_skip (goParse_none h5), firstParse_hit (goParse_full hrun hm1 hm2 hd1 hd2)]
    rfl

/-- Layout 7 round-trips format 6 (`January 2, 2006`), after layouts 5 and 6
fail on the comma (layout 6 first eats the long name's first three letters). -/
theorem parse_fmt6 (dt : GoDate) (hv : ValidDate dt) :
    firstParse dateLayouts
      (lowerStr (monthLong dt.m) ++ (' ' :: (noPad dt.d ++ (',' :: (' ' :: pad4 dt.y))))) =
      some (mkDate dt.y dt.m dt.d) := by
  obtain ⟨hy, hm1, hm2, hd1, hd2⟩ := hv
  have hd31 : dt.d ≤ 31 := le_trans hd2 (daysIn_le _ _)
  have e1 : runLayout lay1 pd0
      (lowerStr (monthLong dt.m) ++ (' ' :: (noPad dt.d ++ (',' :: (' ' :: pad4 dt.y))))) = none := by
    rw [lay1]; exact runLayout_y4_on_long hm1 hm2
  have e2 : runLayout lay2 pd0
      (lowerStr (monthLong dt.m) ++ (' ' :: (noPad dt.d ++ (',' :: (' ' :: pad4 dt.y))))) = none := by
    rw [lay2]; exact runLayout_y4_on_long hm1 hm2
  have e3 : runLayout lay3 pd0
      (lowerStr (monthLong dt.m) ++ (' ' :: (noPad dt.d ++ (',' :: (' ' :: pad4 dt.y))))) = none := by
    rw [lay3]; exact runLayout_y4_on_long hm1 hm2
  have e4 : runLayout lay4 pd0
      (lowerStr (monthLong dt.m) ++ (' ' :: (noPad dt.d ++ (',' :: (' ' :: pad4 dt.y))))) = none := by
    rw [lay4]; exact runLayout_y4_on_long hm1 hm2
  have h5 : runLayout lay5 pd0
      (lowerStr (monthLong dt.m) ++ (' ' :: (noPad dt.d ++ (',' :: (' ' :: pad4 dt.y))))) = none := by
    rw [lay5, runLayout_mLong hm1 hm2, runLayout_lit,
      runLayout_dFlex hd1 hd31 (Or.inr ⟨',', ' ' :: pad4 dt.y, rfl, rfl⟩),
      runLayout_lit_ne ',' ' ' rfl]
  have h6 : runLayout lay6 pd0
      (lowerStr (monthLong dt.m) ++ (' ' :: (noPad dt.d ++ (',' :: (' ' :: pad4 dt.y))))) = none := by
    rw [lay6, runLayout_mShort_on_long hm1 hm2]
    by_cases hm5 : dt.m = 5
    · rw [hm5]
      rw [show lowerTail 5 ++ (' ' :: (noPad dt.d ++ (',' :: (' ' :: pad4 dt.y)))) =
          ' ' :: (noPad dt.d ++ (',' :: (' ' :: pad4 dt.y))) from rfl]
      rw [runLayout_lit,
        runLayout_dFlex hd1 hd31 (Or.inr ⟨',', ' ' :: pad4 dt.y, rfl, rfl⟩),
        runLayout_lit_ne ',' ' ' rfl]
    · exact runLayout_sp_on_lowerTail hm1 hm2 hm5
  have hrun : runLayout lay7 pd0
      (lowerStr (monthLong dt.m) ++ (' ' :: (noPad dt.d ++ (',' :: (' ' :: pad4 dt.y))))) =
      some (⟨dt.y, dt.m, dt.d⟩, []) := by
    rw [lay7, runLayout_mLong hm1 hm2, runLayout_lit,
      runLayout_dFlex hd1 hd31 (Or.inr ⟨',', ' ' :: pad4 dt.y, rfl, rfl⟩),
      runLayout_lit, runLayout_lit]
    rw [show pad4 dt.y = pad4 dt.y ++ [] from (List.append_nil _).symm, runLayout_y4 hy]
    rfl
  rw [dateLayouts, firstParse_skip (goParse_none e1), firstParse_skip (goParse_none e2),
    firstParse_skip (goParse_none e3), firstParse_skip (goParse_none e4),
    firstParse_skip (goParse_none h5), firstParse_skip (goParse_none h6),
    firstParse_hit (goParse_full hrun hm1 hm2 hd1 hd2)]
  rfl

/-- Layouts 7 and 8 together round-trip format 7 (`Jan 2, 2006`): for May
layout 7 already matches, otherwise layout 8 does. -/
theorem parse_fmt7 (dt : GoDate) (hv : ValidDate dt) :
    firstParse dateLayouts
      (lowerStr (monthShort dt.m) ++ (' ' :: (noPad dt.d ++ (',' :: (' ' :: pad4 dt.y))))) =
      some (mkDate dt.y dt.m dt.d) := by
  obtain ⟨hy, hm1, hm2, hd1, hd2⟩ := hv
  have hd31 : dt.d ≤ 31 := le_trans hd2 (daysIn_le _ _)
  have e1 : runLayout lay1 pd0
      (lowerStr (monthShort dt.m) ++ (' ' :: (noPad dt.d ++ (',' :: (' ' :: pad4 dt.y))))) = none := by
    rw [lay1]; exact runLayout_y4_on_short hm1 hm2
  have e2 : runLayout lay2 pd0
      (lowerStr (monthShort dt.m) ++ (' ' :: (noPad dt.d ++ (',' :: (' ' :: pad4 dt.y))))) = none := by
    rw [lay2]; exact runLayout_y4_on_short hm1 hm2
  have e3 : runLayout lay3 pd0
      (lowerStr (monthShort dt.m) ++ (' ' :: (noPad dt.d ++ (',' :: (' ' :: pad4 dt.y))))) = none := by
    rw [lay3]; exact runLayout_y4_on_short hm1 hm2
  have e4 : runLayout lay4 pd0
      (lowerStr (monthShort dt.m) ++ (' ' :: (noPad dt.d ++ (',' :: (' ' :: pad4 dt.y))))) = none := by
    rw [lay4]; exact runLayout_y4_on_short hm1 hm2
  have h6 : runLayout lay6 pd0
      (lowerStr (monthShort dt.m) ++ (' ' :: (noPad dt.d ++ (',' :: (' ' :: pad4 dt.y))))) = none := by
    rw [lay6, runLayout_mShort hm1 hm2, runLayout_lit,
      runLayout_dFlex hd1 hd31 (Or.inr ⟨',', ' ' :: pad4 dt.y, rfl, rfl⟩),
      runLayout_lit_ne ',' ' ' rfl]
  by_cases hm5 : dt.m = 5
  · have h5 : runLayout lay5 pd0
        (lowerStr (monthShort dt.m) ++ (' ' :: (noPad dt.d ++ (',' :: (' ' :: pad4 dt.y))))) = none := by
      rw [hm5, lay5, show lowerStr (monthShort 5) = lowerStr (monthLong 5) from rfl]
      rw [runLayout_mLong (by omega) (by omega), runLayout_lit,
        runLayout_dFlex hd1 hd31 (Or.inr ⟨',', ' ' :: pad4 dt.y, rfl, rfl⟩),
        runLayout_lit_ne ',' ' ' rfl]
    have hrun : runLayout lay7 pd0
        (lowerStr (monthShort dt.m) ++ (' ' :: (noPad dt.d ++ (',' :: (' ' :: pad4 dt.y))))) =
        some (⟨dt.y, dt.m, dt.d⟩, []) := by
      rw [hm5, lay7, show lowerStr (monthShort 5) = lowerStr (monthLong 5) from rfl]
      rw [runLayout_mLong (by omega) (by omega), runLayout_lit,
        runLayout_dFlex hd1 hd31 (Or.inr ⟨',', ' ' :: pad4 dt.y, rfl, rfl⟩),
        runLayout_lit, runLayout_lit]
      rw [show pad4 dt.y = pad4 dt.y ++ [] from (List.append_nil _).symm, runLayout_y4 hy]
      rfl
    rw [dateLayouts, firstParse_skip (goParse_none e1), firstParse_skip (goParse_none e2),
      firstParse_skip (goParse_none e3), firstParse_skip (goParse_none e4),
      firstParse_skip (goParse_none h5), firstParse_skip (goParse_none h6),
      firstParse_hit (goParse_full hrun hm1 hm2 hd1 hd2)]
    rfl
  · have h5 : runLayout lay5 pd0
        (lowerStr (monthShort dt.m) ++ (' ' :: (noPad dt.d ++ (',' :: (' ' :: pad4 dt.y))))) = none := by
      rw [lay5, runLayout_mLong_on_short hm1 hm2 hm5]
    have h7 : runLayout lay7 pd0
        (lowerStr (monthShort dt.m) ++ (' ' :: (noPad dt.d ++ (',' :: (' ' :: pad4 dt.y))))) = none := by
      rw [lay7, runLayout_mLong_on_short hm1 hm2 hm5]
    have hrun : runLayout lay8 pd0
        (lowerStr (monthShort dt.m) ++ (' ' :: (noPad dt.d ++ (',' :: (' ' :: pad4 dt.y))))) =
        some (⟨dt.y, dt.m, dt.d⟩, []) := by
      rw [lay8, runLayout_mShort hm1 hm2, runLayout_lit,
        runLayout_dFlex hd1 hd31 (Or.inr ⟨',', ' ' :: pad4 dt.y, rfl, rfl⟩),
        runLayout_lit, runLayout_lit]
      rw [show pad4 dt.y = pad4 dt.y ++ [] from (List.append_nil _).symm, runLayout_y4 hy]
      rfl
    rw [dateLayouts, firstParse_skip (goParse_none e1), firstParse_skip (goParse_none e2),
      firstParse_skip (goParse_none e3), firstParse_skip (goParse_none e4),
      firstParse_skip (goParse_none h5), firstParse_skip (goParse_none h6),
      firstParse_skip (goParse_none h7), firstParse_hit (goParse_full hrun hm1 hm2 hd1 hd2)]
    rfl

/-! ### Claim C8 — end-of-text shapes for trimming -/

/-- A character the trimming pipeline never strips. -/
def cleanCh (c : Char) : Prop := goSpace c = false ∧ (c == ':') = false

/-- Rendered years end in a clean digit. -/
theorem lastRep_pad4 (n : Nat) : ∃ L c, pad4 n = L ++ [c] ∧ cleanCh c :=
  ⟨[digChar (n / 1000), digChar (n / 100), digChar (n / 10)], digChar n, rfl,
    goSpace_digChar n, colon_digChar n⟩

/-- Rendered two-digit fields end in a clean digit. -/
theorem lastRep_pad2 (n : Nat) : ∃ L c, pad2 n = L ++ [c] ∧ cleanCh c :=
  ⟨[digChar (n / 10)], digChar n, rfl, goSpace_digChar n, colon_digChar n⟩

/-- Rendered days end in a clean digit. -/
theorem lastRep_noPad (n : Nat) : ∃ L c, noPad n = L ++ [c] ∧ cleanCh c := by
  by_cases h : n < 10
  · exact ⟨[], digChar n, by rw [noPad, if_pos h]; rfl, goSpace_digChar n, colon_digChar n⟩
  · exact ⟨[digChar (n / 10)], digChar n, by rw [noPad, if_neg h]; rfl, goSpace_digChar n,
      colon_digChar n⟩

/-- A final clean character survives prefixing. -/
theorem lastRep_append (A : List Char) {R : List Char}
    (h : ∃ L c, R = L ++ [c] ∧ cleanCh c) : ∃ L c, A ++ R = L ++ [c] ∧ cleanCh c := by
  rcases h with ⟨L, c, rfl, hc⟩
  exact ⟨A ++ L, c, (List.append_assoc _ _ _).symm, hc⟩

/-- A final clean character survives consing. -/
theorem lastRep_cons (a : Char) {R : List Char}
    (h : ∃ L c, R = L ++ [c] ∧ cleanCh c) : ∃ L c, a :: R = L ++ [c] ∧ cleanCh c := by
  rcases h with ⟨L, c, rfl, hc⟩
  exact ⟨a :: L, c, rfl, hc⟩

/-- Texts starting with a rendered year start clean. -/
theorem headRep_pad4 (n : Nat) (R : List Char) :
    ∃ a T, pad4 n ++ R = a :: T ∧ cleanCh a :=
  ⟨digChar (n / 1000), _, rfl, goSpace_digChar _, colon_digChar _⟩

/-- Texts starting with a lower-cased long month name start clean. -/
theorem headRep_long (m : Nat) (h1 : 1 ≤ m) (h2 : m ≤ 12) (R : List Char) :
    ∃ a T, lowerStr (monthLong m) ++ R = a :: T ∧ cleanCh a := by
  interval_cases m <;> exact ⟨_, _, rfl, by decide, by decide⟩

/-- Texts starting with a lower-cased short month name start clean. -/
theorem headRep_short (m : Nat) (h1 : 1 ≤ m) (h2 : m ≤ 12) (R : List Char) :
    ∃ a T, lowerStr (monthShort m) ++ R = a :: T ∧ cleanCh a := by
  interval_cases m <;> exact ⟨_, _, rfl, by decide, by decide⟩

/-! ### Claim C8 — absence of keyword and newline in the date text -/

/-- A non-empty word does not occur in the empty text. -/
theorem findIdxW_nil {c : Char} {w : List Char} : findIdxW (c :: w) [] = none := rfl

/-- A word occurs nowhere when it starts nowhere. -/
theorem findIdxW_cons_none {w : List Char} {a : Char} {l : List Char}
    (hs : wordStarts w (a :: l) = false) (h : findIdxW w l = none) :
    findIdxW w (a :: l) = none := by
  simp [findIdxW, hs, h]

/-- A word starting with `c` cannot start at a character other than `c`. -/
theorem wordStarts_false_head {c : Char} {w : List Char} {a : Char} {l : List Char}
    (h : (c == a) = false) : wordStarts (c :: w) (a :: l) = false := by
  simp [wordStarts, h]

/-- A word starting with `c` does not occur in a text without `c`. -/
theorem findIdxW_of_all {c : Char} {w : List Char} :
    ∀ {l : List Char}, (∀ x ∈ l, (c == x) = false) → findIdxW (c :: w) l = none := by
  intro l
  induction l with
  | nil => intro _; rfl
  | cons a t ih =>
    intro h
    exact findIdxW_cons_none (wordStarts_false_head (h a (by simp)))
      (ih fun x hx => h x (by simp [hx]))

/-- Skipping a `c`-free chunk while searching for a word starting with `c`. -/
theorem findIdxW_chunk {c : Char} {w : List Char} {A : List Char}
    (hA : ∀ x ∈ A, (c == x) = false) {l : List Char}
    (h : findIdxW (c :: w) l = none) : findIdxW (c :: w) (A ++ l) = none := by
  induction A with
  | nil => simpa using h
  | cons a t ih =>
    rw [List.cons_append]
    exact findIdxW_cons_none (wordStarts_false_head (hA a (by simp)))
      (ih fun x hx => hA x (by simp [hx]))

/-- Rendered years contain no `d`. -/
theorem pad4_no_d (n : Nat) : ∀ x ∈ pad4 n, ('d' == x) = false := by
  intro x hx
  rcases (by simpa [pad4] using hx : x = digChar (n / 1000) ∨ x = digChar (n / 100) ∨
    x = digChar (n / 10) ∨ x = digChar n) with h | h | h | h <;>
    (subst h; exact dCh_ne_digChar _)

/-- Rendered two-digit fields contain no `d`. -/
theorem pad2_no_d (n : Nat) : ∀ x ∈ pad2 n, ('d' == x) = false := by
  intro x hx
  rcases (by simpa [pad2] using hx : x = digChar (n / 10) ∨ x = digChar n) with h | h <;>
    (subst h; exact dCh_ne_digChar _)

/-- Rendered days contain no `d`. -/
theorem noPad_no_d (n : Nat) : ∀ x ∈ noPad n, ('d' == x) = false := by
  intro x hx
  by_cases h : n < 10
  · rw [noPad, if_pos h] at hx
    rcases (by simpa using hx : x = digChar n) with h2
    subst h2; exact dCh_ne_digChar _
  · rw [noPad, if_neg h] at hx
    rcases (by simpa using hx : x = digChar (n / 10) ∨ x = digChar n) with h2 | h2 <;>
      (subst h2; exact dCh_ne_digChar _)

/-- Rendered years contain no newline. -/
theorem pad4_no_nl (n : Nat) : ∀ x ∈ pad4 n, ('\n' == x) = false := by
  intro x hx
  rcases (by simpa [pad4] using hx : x = digChar (n / 1000) ∨ x = digChar (n / 100) ∨
    x = digChar (n / 10) ∨ x = digChar n) with h | h | h | h <;>
    (subst h; exact nlCh_ne_digChar _)

/-- Rendered two-digit fields contain no newline. -/
theorem pad2_no_nl (n : Nat) : ∀ x ∈ pad2 n, ('\n' == x) = false := by
  intro x hx
  rcases (by simpa [pad2] using hx : x = digChar (n / 10) ∨ x = digChar n) with h | h <;>
    (subst h; exact nlCh_ne_digChar _)

/-- Rendered days contain no newline. -/
theorem noPad_no_nl (n : Nat) : ∀ x ∈ noPad n, ('\n' == x) = false := by
  intro x hx
  by_cases h : n < 10
  · rw [noPad, if_pos h] at hx
    rcases (by simpa using hx : x = digChar n) with h2
    subst h2; exact nlCh_ne_digChar _
  · rw [noPad, if_neg h] at hx
    rcases (by simpa using hx : x = digChar (n / 10) ∨ x = digChar n) with h2 | h2 <;>
      (subst h2; exact nlCh_ne_digChar _)

/-- Lower-cased long month names contain no newline. -/
theorem long_no_nl (m : Nat) (h1 : 1 ≤ m) (h2 : m ≤ 12) :
    ∀ x ∈ lowerStr (monthLong m), ('\n' == x) = false := by
  interval_cases m <;> decide

/-- Lower-cased short month names contain no newline. -/
theorem short_no_nl (m : Nat) (h1 : 1 ≤ m) (h2 : m ≤ 12) :
    ∀ x ∈ lowerStr (monthShort m), ('\n' == x) = false := by
  interval_cases m <;> decide

/-- Lower-cased long month names other than December contain no `d`. -/
theorem long_no_d (m : Nat) (h1 : 1 ≤ m) (h2 : m ≤ 12) (h12 : m ≠ 12) :
    ∀ x ∈ lowerStr (monthLong m), ('d' == x) = false := by
  interval_cases m <;> first | decide | exact absurd rfl h12

/-- Lower-cased short month names other than December contain no `d`. -/
theorem short_no_d (m : Nat) (h1 : 1 ≤ m) (h2 : m ≤ 12) (h12 : m ≠ 12) :
    ∀ x ∈ lowerStr (monthShort m), ('d' == x) = false := by
  interval_cases m <;> first | decide | exact absurd rfl h12

/-- The keyword does not occur inside `"december"`: the match fails at the
third letter and no later letter is a `d`. -/
theorem findIdxW_dead_december {R : List Char} (h : findIdxW deadlineW R = none) :
    findIdxW deadlineW (lowerStr (monthLong 12) ++ R) = none :=
  findIdxW_cons_none rfl (findIdxW_chunk (by decide) h)

/-- The keyword does not occur inside `"dec"`. -/
theorem findIdxW_dead_dec {R : List Char} (h : findIdxW deadlineW R = none) :
    findIdxW deadlineW (lowerStr (monthShort 12) ++ R) = none :=
  findIdxW_cons_none rfl (findIdxW_chunk (by decide) h)

/-! ### Claim C8 — the single-occurrence scan -/

/-- A word starts any text it prefixes. -/
theorem wordStarts_self (w t : List Char) : wordStarts w (w ++ t) = true := by
  induction w with
  | nil => rfl
  | cons a as ih => simp [wordStarts, ih]

/-- `strings.Index` reports position 0 on a text starting with the word. -/
theorem findIdxW_here {w t : List Char} : findIdxW w (w ++ t) = some 0 := by
  cases w with
  | nil => cases t <;> simp [findIdxW, wordStarts]
  | cons a as =>
    have hs : wordStarts (a :: as) (a :: (as ++ t)) = true := wordStarts_self (a :: as) t
    rw [List.cons_append]
    simp [findIdxW, hs]

/-- The scan stops silently when the keyword is absent, whatever the fuel. -/
theorem scanStep_none {w b : List Char} (h : findIdxW w b = none) :
    ∀ f, scanStep w f b = [] := by
  intro f
  cases f with
  | zero => rfl
  | succ n => simp [scanStep, h]

/-- One unfolding of the scanning loop when fuel remains. -/
theorem scanStep_succ (w : List Char) (f : Nat) (b : List Char) :
    scanStep w (f + 1) b =
      match findIdxW w b with
      | none => []
      | some i =>
        let rest := b.drop (i + w.length)
        let lb :=
          match findIdxW ['\n'] rest with
          | some j => j
          | none => rest.length
        let d := parseDate (rest.take lb)
        let tl := scanStep w f rest
        if d == zeroTime then tl else d :: tl := rfl

/-- A body of the shape `keyword ++ " " ++ date-text` with no newline, no
second keyword occurrence, and a non-zero parse yields exactly one date. -/
theorem scanBody_one {X : List Char} {t : GoTime}
    (hp : parseDate (' ' :: X) = t) (hz : t ≠ zeroTime)
    (hnl : findIdxW ['\n'] (' ' :: X) = none)
    (hw : findIdxW deadlineW (' ' :: X) = none) :
    scanBody deadlineW (deadlineW ++ ' ' :: X) = [t] := by
  rw [scanBody, scanStep_succ, findIdxW_here]
  dsimp only
  rw [Nat.zero_add, List.drop_left, hnl]
  dsimp only
  rw [List.take_length, hp, scanStep_none hw]
  rw [if_neg (by simp [hz])]

/-! ### Claim C8 — lower-cased shapes of the eight formats -/

/-- Lower-casing format 0 output. -/
theorem lower_r0 (dt : GoDate) :
    lowerStr (render 0 dt) = pad4 dt.y ++ ('/' :: (pad2 dt.m ++ ('/' :: pad2 dt.d))) := by
  simp only [render, lowerStr_append, lowerStr_cons, lowerStr_pad4, lowerStr_pad2, lower_slash]

/-- Lower-casing format 1 output. -/
theorem lower_r1 (dt : GoDate) :
    lowerStr (render 1 dt) = pad4 dt.y ++ ('-' :: (pad2 dt.m ++ ('-' :: pad2 dt.d))) := by
  simp only [render, lowerStr_append, lowerStr_cons, lowerStr_pad4, lowerStr_pad2, lower_dash]

/-- Lower-casing format 2 output. -/
theorem lower_r2 (dt : GoDate) :
    lowerStr (render 2 dt) =
      pad4 dt.y ++ (' ' :: (lowerStr (monthLong dt.m) ++ (' ' :: noPad dt.d))) := by
  simp only [render, lowerStr_append, lowerStr_cons, lowerStr_pad4, lowerStr_noPad, lower_space]

/-- Lower-casing format 3 output. -/
theorem lower_r3 (dt : GoDate) :
    lowerStr (render 3 dt) =
      pad4 dt.y ++ (' ' :: (lowerStr (monthShort dt.m) ++ (' ' :: noPad dt.d))) := by
  simp only [render, lowerStr_append, lowerStr_cons, lowerStr_pad4, lowerStr_noPad, lower_space]

/-- Lower-casing format 4 output. -/
theorem lower_r4 (dt : GoDate) :
    lowerStr (render 4 dt) =
      lowerStr (monthLong dt.m) ++ (' ' :: (noPad dt.d ++ (' ' :: pad4 dt.y))) := by
  simp only [render, lowerStr_append, lowerStr_cons, lowerStr_pad4, lowerStr_noPad, lower_space]

/-- Lower-casing format 5 output. -/
theorem lower_r5 (dt : GoDate) :
    lowerStr (render 5 dt) =
      lowerStr (monthShort dt.m) ++ (' ' :: (noPad dt.d ++ (' ' :: pad4 dt.y))) := by
  simp only [render, lowerStr_append, lowerStr_cons, lowerStr_pad4, lowerStr_noPad, lower_space]

/-- Lower-casing format 6 output. -/
theorem lower_r6 (dt : GoDate) :
    lowerStr (render 6 dt) =
      lowerStr (monthLong dt.m) ++ (' ' :: (noPad dt.d ++ (',' :: (' ' :: pad4 dt.y)))) := by
  simp only [render, lowerStr_append, lowerStr_cons, lowerStr_pad4, lowerStr_noPad, lower_space,
    lower_comma]

/-- Lower-casing format 7 output. -/
theorem lower_r7 (dt : GoDate) :
    lowerStr (render 7 dt) =
      lowerStr (monthShort dt.m) ++ (' ' :: (noPad dt.d ++ (',' :: (' ' :: pad4 dt.y)))) := by
  simp only [render, lowerStr_append, lowerStr_cons, lowerStr_pad4, lowerStr_noPad, lower_space,
    lower_comma]

/-- The keyword does not occur inside any lower-cased long month name. -/
theorem findIdxW_dead_long {R : List Char} (m : Nat) (h1 : 1 ≤ m) (h2 : m ≤ 12)
    (h : findIdxW deadlineW R = none) :
    findIdxW deadlineW (lowerStr (monthLong m) ++ R) = none := by
  by_cases h12 : m = 12
  · subst h12; exact findIdxW_dead_december h
  · exact findIdxW_chunk (long_no_d m h1 h2 h12) h

/-- The keyword does not occur inside any lower-cased short month name. -/
theorem findIdxW_dead_short {R : List Char} (m : Nat) (h1 : 1 ≤ m) (h2 : m ≤ 12)
    (h : findIdxW deadlineW R = none) :
    findIdxW deadlineW (lowerStr (monthShort m) ++ R) = none := by
  by_cases h12 : m = 12
  · subst h12; exact findIdxW_dead_dec h
  · exact findIdxW_chunk (short_no_d m h1 h2 h12) h

/-! ### Claim C8 — one scan per format -/

/-- Format 0 round-trips through the whole scan. -/
theorem round_fmt0 (dt : GoDate) (hv : ValidDate dt) (hz : mkDate dt.y dt.m dt.d ≠ zeroTime) :
    scanBody deadlineW (lowerStr (deadlineW ++ ' ' :: render 0 dt)) = [mkDate dt.y dt.m dt.d] := by
  rw [lower_keyword, lower_r0]
  rcases headRep_pad4 dt.y ('/' :: (pad2 dt.m ++ ('/' :: pad2 dt.d))) with ⟨a, T, hh, ha1, ha2⟩
  rcases lastRep_append (pad4 dt.y) (lastRep_cons '/' (lastRep_append (pad2 dt.m)
    (lastRep_cons '/' (lastRep_pad2 dt.d)))) with ⟨L, c, hl, hc1, hc2⟩
  exact scanBody_one (parseDate_sp hh hl ha1 ha2 hc1 hc2 (parse_fmt0 dt hv)) hz
    (findIdxW_cons_none rfl (findIdxW_chunk (pad4_no_nl dt.y) (findIdxW_cons_none rfl
      (findIdxW_chunk (pad2_no_nl dt.m) (findIdxW_cons_none rfl
        (findIdxW_of_all (pad2_no_nl dt.d)))))))
    (findIdxW_cons_none rfl (findIdxW_chunk (pad4_no_d dt.y) (findIdxW_cons_none rfl
      (findIdxW_chunk (pad2_no_d dt.m) (findIdxW_cons_none rfl
        (findIdxW_of_all (pad2_no_d dt.d)))))))

/-- Format 1 round-trips through the whole scan. -/
theorem round_fmt1 (dt : GoDate) (hv : ValidDate dt) (hz : mkDate dt.y dt.m dt.d ≠ zeroTime) :
    scanBody deadlineW (lowerStr (deadlineW ++ ' ' :: render 1 dt)) = [mkDate dt.y dt.m dt.d] := by
  rw [lower_keyword, lower_r1]
  rcases headRep_pad4 dt.y ('-' :: (pad2 dt.m ++ ('-' :: pad2 dt.d))) with ⟨a, T, hh, ha1, ha2⟩
  rcases lastRep_append (pad4 dt.y) (lastRep_cons '-' (lastRep_append (pad2 dt.m)
    (lastRep_cons '-' (lastRep_pad2 dt.d)))) with ⟨L, c, hl, hc1, hc2⟩
  exact scanBody_one (parseDate_sp hh hl ha1 ha2 hc1 hc2 (parse_fmt1 dt hv)) hz
    (findIdxW_cons_none rfl (findIdxW_chunk (pad4_no_nl dt.y) (findIdxW_cons_none rfl
      (findIdxW_chunk (pad2_no_nl dt.m) (findIdxW_cons_none rfl
        (findIdxW_of_all (pad2_no_nl dt.d)))))))
    (findIdxW_cons_none rfl (findIdxW_chunk (pad4_no_d dt.y) (findIdxW_cons_none rfl
      (findIdxW_chunk (pad2_no_d dt.m) (findIdxW_cons_none rfl
        (findIdxW_of_all (pad2_no_d dt.d)))))))

/-- Format 2 round-trips through the whole scan. -/
theorem round_fmt2 (dt : GoDate) (hv : ValidDate dt) (hz : mkDate dt.y dt.m dt.d ≠ zeroTime) :
    scanBody deadlineW (lowerStr (deadlineW ++ ' ' :: render 2 dt)) = [mkDate dt.y dt.m dt.d] := by
  have hm1 : 1 ≤ dt.m := hv.2.1
  have hm2 : dt.m ≤ 12 := hv.2.2.1
  rw [lower_keyword, lower_r2]
  rcases headRep_pad4 dt.y (' ' :: (lowerStr (monthLong dt.m) ++ (' ' :: noPad dt.d)))
    with ⟨a, T, hh, ha1, ha2⟩
  rcases lastRep_append (pad4 dt.y) (lastRep_cons ' ' (lastRep_append (lowerStr (monthLong dt.m))
    (lastRep_cons ' ' (lastRep_noPad dt.d)))) with ⟨L, c, hl, hc1, hc2⟩
  exact scanBody_one (parseDate_sp hh hl ha1 ha2 hc1 hc2 (parse_fmt2 dt hv)) hz
    (findIdxW_cons_none rfl (findIdxW_chunk (pad4_no_nl dt.y) (findIdxW_cons_none rfl
      (findIdxW_chunk (long_no_nl dt.m hm1 hm2) (findIdxW_cons_none rfl
        (findIdxW_of_all (noPad_no_nl dt.d)))))))
    (findIdxW_cons_none rfl (findIdxW_chunk (pad4_no_d dt.y) (findIdxW_cons_none rfl
      (findIdxW_dead_long dt.m hm1 hm2 (findIdxW_cons_none rfl
        (findIdxW_of_all (noPad_no_d dt.d)))))))

/-- Format 3 round-trips through the whole scan. -/
theorem round_fmt3 (dt : GoDate) (hv : ValidDate dt) (hz : mkDate dt.y dt.m dt.d ≠ zeroTime) :
    scanBody deadlineW (lowerStr (deadlineW ++ ' ' :: render 3 dt)) = [mkDate dt.y dt.m dt.d] := by
  have hm1 : 1 ≤ dt.m := hv.2.1
  have hm2 : dt.m ≤ 12 := hv.2.2.1
  rw [lower_keyword, lower_r3]
  rcases headRep_pad4 dt.y (' ' :: (lowerStr (monthShort dt.m) ++ (' ' :: noPad dt.d)))
    with ⟨a, T, hh, ha1, ha2⟩
  rcases lastRep_append (pad4 dt.y) (lastRep_cons ' ' (lastRep_append (lowerStr (monthShort dt.m))
    (lastRep_cons ' ' (lastRep_noPad dt.d)))) with ⟨L, c, hl, hc1, hc2⟩
  exact scanBody_one (parseDate_sp hh hl ha1 ha2 hc1 hc2 (parse_fmt3 dt hv)) hz
    (findIdxW_cons_none rfl (findIdxW_chunk (pad4_no_nl dt.y) (findIdxW_cons_none rfl
      (findIdxW_chunk (short_no_nl dt.m hm1 hm2) (findIdxW_cons_none rfl
        (findIdxW_of_all (noPad_no_nl dt.d)))))))
    (findIdxW_cons_none rfl (findIdxW_chunk (pad4_no_d dt.y) (findIdxW_cons_none rfl
      (findIdxW_dead_short dt.m hm1 hm2 (findIdxW_cons_none rfl
        (findIdxW_of_all (noPad_no_d dt.d)))))))

/-- Format 4 round-trips through the whole scan. -/
theorem round_fmt4 (dt : GoDate) (hv : ValidDate dt) (hz : mkDate dt.y dt.m dt.d ≠ zeroTime) :
    scanBody deadlineW (lowerStr (deadlineW ++ ' ' :: render 4 dt)) = [mkDate dt.y dt.m dt.d] := by
  have hm1 : 1 ≤ dt.m := hv.2.1
  have hm2 : dt.m ≤ 12 := hv.2.2.1
  rw [lower_keyword, lower_r4]
  rcases headRep_long dt.m hm1 hm2 (' ' :: (noPad dt.d ++ (' ' :: pad4 dt.y)))
    with ⟨a, T, hh, ha1, ha2⟩
  rcases lastRep_append (lowerStr (monthLong dt.m)) (lastRep_cons ' '
    (lastRep_append (noPad dt.d) (lastRep_cons ' ' (lastRep_pad4 dt.y))))
    with ⟨L, c, hl, hc1, hc2⟩
  exact scanBody_one (parseDate_sp hh hl ha1 ha2 hc1 hc2 (parse_fmt4 dt hv)) hz
    (findIdxW_cons_none rfl (findIdxW_chunk (long_no_nl dt.m hm1 hm2) (findIdxW_cons_none rfl
      (findIdxW_chunk (noPad_no_nl dt.d) (findIdxW_cons_none rfl
        (findIdxW_of_all (pad4_no_nl dt.y)))))))
    (findIdxW_cons_none rfl (findIdxW_dead_long dt.m hm1 hm2 (findIdxW_cons_none rfl
      (findIdxW_chunk (noPad_no_d dt.d) (findIdxW_cons_none rfl
        (findIdxW_of_all (pad4_no_d dt.y)))))))

/-- Format 5 round-trips through the whole scan. -/
theorem round_fmt5 (dt : GoDate) (hv : ValidDate dt) (hz : mkDate dt.y dt.m dt.d ≠ zeroTime) :
    scanBody deadlineW (lowerStr (deadlineW ++ ' ' :: render 5 dt)) = [mkDate dt.y dt.m dt.d] := by
  have hm1 : 1 ≤ dt.m := hv.2.1
  have hm2 : dt.m ≤ 12 := hv.2.2.1
  rw [lower_keyword, lower_r5]
  rcases headRep_short dt.m hm1 hm2 (' ' :: (noPad dt.d ++ (' ' :: pad4 dt.y)))
    with ⟨a, T, hh, ha1, ha2⟩
  rcases lastRep_append (lowerStr (monthShort dt.m)) (lastRep_cons ' '
    (lastRep_append (noPad dt.d) (lastRep_cons ' ' (lastRep_pad4 dt.y))))
    with ⟨L, c, hl, hc1, hc2⟩
  exact scanBody_one (parseDate_sp hh hl ha1 ha2 hc1 hc2 (parse_fmt5 dt hv)) hz
    (findIdxW_cons_none rfl (findIdxW_chunk (short_no_nl dt.m hm1 hm2) (findIdxW_cons_none rfl
      (findIdxW_chunk (noPad_no_nl dt.d) (findIdxW_cons_none rfl
        (findIdxW_of_all (pad4_no_nl dt.y)))))))
    (findIdxW_cons_none rfl (findIdxW_dead_short dt.m hm1 hm2 (findIdxW_cons_none rfl
      (findIdxW_chunk (noPad_no_d dt.d) (findIdxW_cons_none rfl
        (findIdxW_of_all (pad4_no_d dt.y)))))))

/-- Format 6 round-trips through the whole scan. -/
theorem round_fmt6 (dt : GoDate) (hv : ValidDate dt) (hz : mkDate dt.y dt.m dt.d ≠ zeroTime) :
    scanBody deadlineW (lowerStr (deadlineW ++ ' ' :: render 6 dt)) = [mkDate dt.y dt.m dt.d] := by
  have hm1 : 1 ≤ dt.m := hv.2.1
  have hm2 : dt.m ≤ 12 := hv.2.2.1
  rw [lower_keyword, lower_r6]
  rcases headRep_long dt.m hm1 hm2 (' ' :: (noPad dt.d ++ (',' :: (' ' :: pad4 dt.y))))
    with ⟨a, T, hh, ha1, ha2⟩
  rcases lastRep_append (lowerStr (monthLong dt.m)) (lastRep_cons ' '
    (lastRep_append (noPad dt.d) (lastRep_cons ',' (lastRep_cons ' ' (lastRep_pad4 dt.y)))))
    with ⟨L, c, hl, hc1, hc2⟩
  exact scanBody_one (parseDate_sp hh hl ha1 ha2 hc1 hc2 (parse_fmt6 dt hv)) hz
    (findIdxW_cons_none rfl (findIdxW_chunk (long_no_nl dt.m hm1 hm2) (findIdxW_cons_none rfl
      (findIdxW_chunk (noPad_no_nl dt.d) (findIdxW_cons_none rfl (findIdxW_cons_none rfl
        (findIdxW_of_all (pad4_no_nl dt.y))))))))
    (findIdxW_cons_none rfl (findIdxW_dead_long dt.m hm1 hm2 (findIdxW_cons_none rfl
      (findIdxW_chunk (noPad_no_d dt.d) (findIdxW_cons_none rfl (findIdxW_cons_none rfl
        (findIdxW_of_all (pad4_no_d dt.y))))))))

/-- Format 7 round-trips through the whole scan. -/
theorem round_fmt7 (dt : GoDate) (hv : ValidDate dt) (hz : mkDate dt.y dt.m dt.d ≠ zeroTime) :
    scanBody deadlineW (lowerStr (deadlineW ++ ' ' :: render 7 dt)) = [mkDate dt.y dt.m dt.d] := by
  have hm1 : 1 ≤ dt.m := hv.2.1
  have hm2 : dt.m ≤ 12 := hv.2.2.1
  rw [lower_keyword, lower_r7]
  rcases headRep_short dt.m hm1 hm2 (' ' :: (noPad dt.d ++ (',' :: (' ' :: pad4 dt.y))))
    with ⟨a, T, hh, ha1, ha2⟩
  rcases lastRep_append (lowerStr (monthShort dt.m)) (lastRep_cons ' '
    (lastRep_append (noPad dt.d) (lastRep_cons ',' (lastRep_cons ' ' (lastRep_pad4 dt.y)))))
    with ⟨L, c, hl, hc1, hc2⟩
  exact scanBody_one (parseDate_sp hh hl ha1 ha2 hc1 hc2 (parse_fmt7 dt hv)) hz
    (findIdxW_cons_none rfl (findIdxW_chunk (short_no_nl dt.m hm1 hm2) (findIdxW_cons_none rfl
      (findIdxW_chunk (noPad_no_nl dt.d) (findIdxW_cons_none rfl (findIdxW_cons_none rfl
        (findIdxW_of_all (pad4_no_nl dt.y))))))))
    (findIdxW_cons_none rfl (findIdxW_dead_short dt.m hm1 hm2 (findIdxW_cons_none rfl
      (findIdxW_chunk (noPad_no_d dt.d) (findIdxW_cons_none rfl (findIdxW_cons_none rfl
        (findIdxW_of_all (pad4_no_d dt.y))))))))

/-- C8 (amended): for every valid calendar date other than January 1 of
year 1 and each of the eight accepted formats, extracting with keyword
`"deadline"` from `"deadline "` followed by the rendered date returns
exactly that one date.  (January 1 of year 1 parses to Go's zero time and
is discarded by the `IsZero` check in `findTimes`.) -/
theorem c8_format_round_trip (dt : GoDate) (hv : ValidDate dt)
    (hz : mkDate dt.y dt.m dt.d ≠ zeroTime) (k : Nat) (hk : k < 8) :
    findTimes deadlineW [deadlineW ++ ' ' :: render k dt] = [mkDate dt.y dt.m dt.d] := by
  have hsingle : findTimes deadlineW [deadlineW ++ ' ' :: render k dt] =
      scanBody deadlineW (lowerStr (deadlineW ++ ' ' :: render k dt)) := by
    simp [findTimes]
  rw [hsingle]
  interval_cases k
  · exact round_fmt0 dt hv hz
  · exact round_fmt1 dt hv hz
  · exact round_fmt2 dt hv hz
  · exact round_fmt3 dt hv hz
  · exact round_fmt4 dt hv hz
  · exact round_fmt5 dt hv hz
  · exact round_fmt6 dt hv hz
  · exact round_fmt7 dt hv hz

/-- Witness for C8 at 2020-05-05 in the `YYYY/MM/DD` format. -/
theorem c8_witness :
    ValidDate ⟨2020, 5, 5⟩ ∧
    findTimes deadlineW [deadlineW ++ ' ' :: render 0 ⟨2020, 5, 5⟩] = [mkDate 2020 5 5] :=
  ⟨by decide, c8_format_round_trip ⟨2020, 5, 5⟩ (by decide) (by decide) 0 (by decide)⟩

/-- Counterexample to C8 as stated: January 1 of year 1 is a calendar date,
but its parse equals Go's zero `time.Time`, so `findTimes` silently drops it
and the extraction returns the empty sequence instead of `[d]`. -/
theorem c8_counterexample :
    ValidDate ⟨1, 1, 1⟩ ∧
    findTimes deadlineW [deadlineW ++ ' ' :: render 0 ⟨1, 1, 1⟩] = [] ∧
    ([] : List GoTime) ≠ [mkDate 1 1 1] := by
  exact ⟨by decide, by decide, by decide⟩
